import Mathlib

/-!
Shallow embedding of the TWH intelligence-platform ingestion pipeline.

The definitions below are translated from the TypeScript sources:
`src/mastra/workflows/intelligenceWorkflow.ts` (dedup filter, inline entity
normalization, article processing, analyst routing),
`src/mastra/agents/researcherAgent.ts` (database operations, date parsing),
`src/mastra/tools/entityNormalizerTool.ts` (normalizer tool with batch dedup)
and the SQL schema in `src/mastra/db/schema.ts`.

The relational store is modelled as lists of rows; SQL upserts become
find-then-update-or-append functions.  External boundaries (the JS `Date`
constructor for standard date strings, and `JSON.parse`) are passed in as
oracle parameters, mirroring the fact that the repository treats them as
opaque runtime services.  JavaScript string operations (`toLowerCase`,
`trim`, the regexes used in the code) are given character-list
implementations so that everything evaluates inside the kernel.
-/

namespace TWH

/-! ### JavaScript string primitives -/

/-- Character class of the JS `\s` regex class and of `String.prototype.trim`:
WhiteSpace plus LineTerminator code points. -/
def isJsSpace (c : Char) : Bool :=
  c = ' ' || c = '\t' || c = '\n' || c.val = 11 || c.val = 12 || c = '\r' ||
  c.val = 0xa0 || c.val = 0x1680 || (0x2000 ≤ c.val && c.val ≤ 0x200a) ||
  c.val = 0x2028 || c.val = 0x2029 || c.val = 0x202f || c.val = 0x205f ||
  c.val = 0x3000 || c.val = 0xfeff

/-- JS `s.toLowerCase()` (ASCII range, which is all the dictionaries use). -/
def jsToLower (s : String) : String :=
  String.mk (s.data.map Char.toLower)

/-- JS `s.trim()`. -/
def jsTrim (s : String) : String :=
  String.mk (((s.data.dropWhile isJsSpace).reverse.dropWhile isJsSpace).reverse)

/-- JS `s.toLowerCase().trim()`, the normalization applied before every
dictionary lookup in the pipeline. -/
def jsLowerTrim (s : String) : String :=
  jsTrim (jsToLower s)

/-- Character class of the JS `\w` regex class. -/
def isWordChar (c : Char) : Bool :=
  c.isAlpha || c.isDigit || c = '_'

/-- Value of a list of decimal digit characters, as JS `parseInt` computes it
on an all-digit string. -/
def digitsToNat (cs : List Char) : Nat :=
  cs.foldl (fun n c => n * 10 + (c.toNat - 48)) 0

/-! ### Canonical dictionaries

`ORGANIZATION_ALIASES` and `TECHNOLOGY_ALIASES` from
`intelligenceWorkflow.ts` (the inline tables used by the workflow), and the
larger tables from `entityNormalizerTool.ts`.  Record literals are modelled
as finite maps from key to value. -/

/-- `ORGANIZATION_ALIASES` of `intelligenceWorkflow.ts` (lines 24-35). -/
def orgAliasesWF (s : String) : Option String :=
  match s with
  | "cerner" | "cerner corporation" | "oracle cerner" => some "Oracle Health"
  | "epic systems" | "epic systems corporation" => some "Epic"
  | "microsoft corporation" => some "Microsoft"
  | "hca healthcare" => some "HCA"
  | "commonspirit health" => some "CommonSpirit"
  | "office of the national coordinator" => some "ONC"
  | "centers for medicare and medicaid services" => some "CMS"
  | _ => none

/-- `TECHNOLOGY_ALIASES` of `intelligenceWorkflow.ts` (lines 37-42). -/
def techAliasesWF (s : String) : Option String :=
  match s with
  | "fast healthcare interoperability resources" => some "FHIR"
  | "health level seven" => some "HL7"
  | "electronic health record" => some "EHR"
  | "artificial intelligence" => some "AI"
  | _ => none

/-- `ORGANIZATION_ALIASES` of `entityNormalizerTool.ts` (lines 5-47). -/
def orgAliasesTool (s : String) : Option String :=
  match s with
  | "cerner" | "cerner corporation" | "oracle cerner" => some "Oracle Health"
  | "epic systems" | "epic systems corporation" => some "Epic"
  | "microsoft corporation" => some "Microsoft"
  | "google health" | "google cloud" => some "Google"
  | "amazon web services" | "amazon" => some "AWS"
  | "ibm watson health" | "ibm watson" => some "IBM"
  | "meditech" => some "MEDITECH"
  | "allscripts" | "allscripts healthcare" => some "Veradigm"
  | "hca healthcare" | "hca hospitals" => some "HCA"
  | "commonspirit health" => some "CommonSpirit"
  | "ascension health" => some "Ascension"
  | "kaiser permanente" | "kaiser foundation" => some "Kaiser"
  | "intermountain healthcare" | "intermountain health" => some "Intermountain"
  | "cleveland clinic foundation" => some "Cleveland Clinic"
  | "mayo clinic hospital" => some "Mayo Clinic"
  | "johns hopkins medicine" | "johns hopkins hospital" => some "Johns Hopkins"
  | "office of the national coordinator" | "office of national coordinator" => some "ONC"
  | "centers for medicare and medicaid services" => some "CMS"
  | "centers for medicare & medicaid services" => some "CMS"
  | "department of health and human services" | "hhs" => some "HHS"
  | "food and drug administration" => some "FDA"
  | "veterans affairs" | "veterans health administration" => some "VA"
  | _ => none

/-- `TECHNOLOGY_ALIASES` of `entityNormalizerTool.ts` (lines 49-69). -/
def techAliasesTool (s : String) : Option String :=
  match s with
  | "epic cosmos" => some "Cosmos"
  | "epic mychart" => some "MyChart"
  | "cerner millennium" | "oracle health millennium" => some "Millennium"
  | "fast healthcare interoperability resources" => some "FHIR"
  | "health level seven" | "health level 7" => some "HL7"
  | "electronic health record" => some "EHR"
  | "electronic medical record" => some "EMR"
  | "artificial intelligence" => some "AI"
  | "machine learning" => some "ML"
  | "natural language processing" => some "NLP"
  | "clinical decision support" => some "CDS"
  | "revenue cycle management" => some "RCM"
  | "population health management" => some "PHM"
  | "patient portal" => some "Patient Portal"
  | "telehealth platform" | "telemedicine" | "virtual care" => some "Telehealth"
  | _ => none

/-! ### Data model: table rows and the store -/

/-- One row of the `articles` table. -/
structure ArticleRow where
  id : Nat
  sourceId : Option Nat
  url : String
  title : String
  author : Option String
  publishedDate : Option String
  rawContent : String
  contentHash : String
  processingStatus : String
  createdAt : Nat
  updatedAt : Nat
deriving DecidableEq

/-- One row of the `organizations` table. -/
structure OrgRow where
  id : Nat
  canonicalName : String
  type : String
  createdAt : Nat
  updatedAt : Nat
deriving DecidableEq

/-- One row of the `article_organizations` junction table. -/
structure OrgLink where
  articleId : Nat
  organizationId : Nat
  confidence : Int
deriving DecidableEq

/-- One row of the `people` table. -/
structure PersonRow where
  id : Nat
  name : String
  title : Option String
  organizationId : Option Nat
deriving DecidableEq

/-- One row of the `article_people` junction table. -/
structure PersonLink where
  articleId : Nat
  personId : Nat
  confidence : Int
deriving DecidableEq

/-- One row of the `technologies` table. -/
structure TechRow where
  id : Nat
  name : String
  category : String
  vendorId : Option Nat
  createdAt : Nat
  updatedAt : Nat
deriving DecidableEq

/-- One row of the `article_technologies` junction table. -/
structure TechLink where
  articleId : Nat
  technologyId : Nat
  confidence : Int
deriving DecidableEq

/-- One row of the `summaries` table (`article_id` is UNIQUE). -/
structure SummaryRow where
  articleId : Nat
  shortSummary : String
  keyTakeaways : List String
  topicTags : List String
  relevanceScore : Int
  createdAt : Nat
  updatedAt : Nat
deriving DecidableEq

/-- One row of the `viewpoints` table (`(article_id, persona_id)` is UNIQUE). -/
structure ViewpointRow where
  id : Nat
  articleId : Nat
  personaId : Nat
  viewpointText : String
  keyInsights : List String
  confidenceScore : Int
  modelUsed : String
  generationMetadata : String
  createdAt : Nat
  updatedAt : Nat
deriving DecidableEq

/-- One row of the `personas` table (only the columns the queries use). -/
structure PersonaRow where
  id : Nat
  slug : String
  enabled : Bool
deriving DecidableEq

/-- The relational store.  `nextId` supplies fresh primary keys and `now`
is a logical clock standing in for `CURRENT_TIMESTAMP`. -/
structure DB where
  articles : List ArticleRow := []
  organizations : List OrgRow := []
  articleOrgs : List OrgLink := []
  people : List PersonRow := []
  articlePeople : List PersonLink := []
  technologies : List TechRow := []
  articleTechs : List TechLink := []
  summaries : List SummaryRow := []
  viewpoints : List ViewpointRow := []
  personas : List PersonaRow := []
  nextId : Nat := 0
  now : Nat := 0
deriving DecidableEq

/-- A candidate article produced by the source fetcher, before persistence. -/
structure Candidate where
  url : String
  title : String
  content : String
  contentHash : String
  author : Option String := none
  publishedDate : Option String := none
  sourceId : Option Nat := none
deriving DecidableEq

/-! ### Database operations (`src/mastra/db/operations.ts`) -/

/-- `checkArticleExists`: `SELECT id FROM articles WHERE content_hash = $1 OR
url = $2`, reported as a Boolean (`result.rows.length > 0`). -/
def checkArticleExists (articles : List ArticleRow) (contentHash url : String) : Bool :=
  articles.any (fun r => r.contentHash == contentHash || r.url == url)

/-- `saveArticle`: `INSERT INTO articles ... ON CONFLICT (url) DO UPDATE SET
title, raw_content, content_hash, updated_at RETURNING id`.  On conflict only
those four columns change; the insert path stores `processing_status =
'scraped'`.  Returns the updated store and the returned id. -/
def saveArticle (db : DB) (a : Candidate) : DB × Nat :=
  match db.articles.find? (fun r => r.url == a.url) with
  | some r =>
      ({ db with
          articles := db.articles.map (fun x =>
            if x.url == a.url then
              { x with title := a.title, rawContent := a.content,
                       contentHash := a.contentHash, updatedAt := db.now }
            else x),
          now := db.now + 1 }, r.id)
  | none =>
      ({ db with
          articles := db.articles ++
            [{ id := db.nextId, sourceId := a.sourceId, url := a.url,
               title := a.title, author := a.author,
               publishedDate := a.publishedDate, rawContent := a.content,
               contentHash := a.contentHash, processingStatus := "scraped",
               createdAt := db.now, updatedAt := db.now }],
          nextId := db.nextId + 1, now := db.now + 1 }, db.nextId)

/-- `UPDATE articles SET processing_status = $status, updated_at =
CURRENT_TIMESTAMP WHERE id = $1`. -/
def setStatus (db : DB) (articleId : Nat) (status : String) : DB :=
  { db with
      articles := db.articles.map (fun x =>
        if x.id == articleId then
          { x with processingStatus := status, updatedAt := db.now }
        else x),
      now := db.now + 1 }

/-- Organization upsert inside `saveEntities`: `INSERT INTO organizations
(canonical_name, type) VALUES ($1, $2) ON CONFLICT (canonical_name) DO UPDATE
SET updated_at = CURRENT_TIMESTAMP RETURNING id`. -/
def upsertOrg (db : DB) (canonicalName ty : String) : DB × Nat :=
  match db.organizations.find? (fun o => o.canonicalName == canonicalName) with
  | some o =>
      ({ db with
          organizations := db.organizations.map (fun x =>
            if x.canonicalName == canonicalName then { x with updatedAt := db.now } else x),
          now := db.now + 1 }, o.id)
  | none =>
      ({ db with
          organizations := db.organizations ++
            [{ id := db.nextId, canonicalName := canonicalName, type := ty,
               createdAt := db.now, updatedAt := db.now }],
          nextId := db.nextId + 1, now := db.now + 1 }, db.nextId)

/-- `INSERT INTO article_organizations ... ON CONFLICT (article_id,
organization_id) DO NOTHING`. -/
def linkOrg (db : DB) (articleId orgId : Nat) (confidence : Int) : DB :=
  if db.articleOrgs.any (fun l => l.articleId == articleId && l.organizationId == orgId) then db
  else { db with articleOrgs := db.articleOrgs ++ [⟨articleId, orgId, confidence⟩] }

/-- A normalized organization as the workflow passes it to `saveEntities`:
`{canonicalName, type, confidence}`. -/
structure NormOrg where
  canonicalName : String
  type : String
  confidence : Int
deriving DecidableEq

/-- A person entity as extracted and normalized:
`{name, title?, organization?, confidence}`. -/
structure NormPerson where
  name : String
  title : Option String
  organization : Option String
  confidence : Int
deriving DecidableEq

/-- A normalized technology as the workflow passes it to `saveEntities`:
`{canonicalName, category, vendor?, confidence}`. -/
structure NormTech where
  canonicalName : String
  category : String
  vendor : Option String
  confidence : Int
deriving DecidableEq

/-- One iteration of the organizations loop in `saveEntities`: upsert the
organization by canonical name, then link it to the article. -/
def saveOrgEntry (db : DB) (articleId : Nat) (o : NormOrg) : DB :=
  let (db1, orgId) := upsertOrg db o.canonicalName o.type
  linkOrg db1 articleId orgId o.confidence

/-- One iteration of the people loop in `saveEntities`.  The organization id
is looked up by canonical name.  The `people` table has no unique constraint
other than its generated primary key, so the `INSERT ... ON CONFLICT DO
NOTHING RETURNING id` always inserts and always returns the fresh id (the
fallback `SELECT` in the code is dead).  The junction insert is
`ON CONFLICT (article_id, person_id) DO NOTHING`. -/
def savePersonEntry (db : DB) (articleId : Nat) (p : NormPerson) : DB :=
  let orgId : Option Nat :=
    match p.organization with
    | some orgName => (db.organizations.find? (fun o => o.canonicalName == orgName)).map (·.id)
    | none => none
  let personId := db.nextId
  let db1 : DB :=
    { db with
        people := db.people ++ [{ id := personId, name := p.name, title := p.title,
                                  organizationId := orgId }],
        nextId := db.nextId + 1, now := db.now + 1 }
  if db1.articlePeople.any (fun l => l.articleId == articleId && l.personId == personId) then db1
  else { db1 with articlePeople := db1.articlePeople ++ [⟨articleId, personId, p.confidence⟩] }

/-- One iteration of the technologies loop in `saveEntities`: look up the
vendor organization, upsert the technology by `name` (`ON CONFLICT (name) DO
UPDATE SET updated_at`), then link it to the article. -/
def saveTechEntry (db : DB) (articleId : Nat) (t : NormTech) : DB :=
  let vendorId : Option Nat :=
    match t.vendor with
    | some v => (db.organizations.find? (fun o => o.canonicalName == v)).map (·.id)
    | none => none
  let (db1, techId) : DB × Nat :=
    match db.technologies.find? (fun x => x.name == t.canonicalName) with
    | some tr =>
        ({ db with
            technologies := db.technologies.map (fun x =>
              if x.name == t.canonicalName then { x with updatedAt := db.now } else x),
            now := db.now + 1 }, tr.id)
    | none =>
        ({ db with
            technologies := db.technologies ++
              [{ id := db.nextId, name := t.canonicalName, category := t.category,
                 vendorId := vendorId, createdAt := db.now, updatedAt := db.now }],
            nextId := db.nextId + 1, now := db.now + 1 }, db.nextId)
  if db1.articleTechs.any (fun l => l.articleId == articleId && l.technologyId == techId) then db1
  else { db1 with articleTechs := db1.articleTechs ++ [⟨articleId, techId, t.confidence⟩] }

/-- `saveEntities`: the three persistence loops followed by
`UPDATE articles SET processing_status = 'extracted'`. -/
def saveEntities (db : DB) (articleId : Nat) (orgs : List NormOrg)
    (people : List NormPerson) (techs : List NormTech) : DB :=
  let db1 := orgs.foldl (fun d o => saveOrgEntry d articleId o) db
  let db2 := people.foldl (fun d p => savePersonEntry d articleId p) db1
  let db3 := techs.foldl (fun d t => saveTechEntry d articleId t) db2
  setStatus db3 articleId "extracted"

/-- `saveSummary`: `INSERT INTO summaries ... ON CONFLICT (article_id) DO
UPDATE SET short_summary, key_takeaways, topic_tags, relevance_score,
updated_at`, followed by `UPDATE articles SET processing_status =
'summarized'`. -/
def saveSummary (db : DB) (articleId : Nat) (summary : String)
    (takeaways tags : List String) (relevanceScore : Int) : DB :=
  let db1 : DB :=
    match db.summaries.find? (fun s => s.articleId == articleId) with
    | some _ =>
        { db with
            summaries := db.summaries.map (fun s =>
              if s.articleId == articleId then
                { s with shortSummary := summary, keyTakeaways := takeaways,
                         topicTags := tags, relevanceScore := relevanceScore,
                         updatedAt := db.now }
              else s),
            now := db.now + 1 }
    | none =>
        { db with
            summaries := db.summaries ++
              [{ articleId := articleId, shortSummary := summary,
                 keyTakeaways := takeaways, topicTags := tags,
                 relevanceScore := relevanceScore, createdAt := db.now,
                 updatedAt := db.now }],
            now := db.now + 1 }
  setStatus db1 articleId "summarized"

/-- The argument record of `saveViewpoint`. -/
structure ViewpointInput where
  articleId : Nat
  personaId : Nat
  viewpointText : String
  keyInsights : List String
  confidenceScore : Int
  modelUsed : Option String := none
  generationMetadata : Option String := none
deriving DecidableEq

/-- `saveViewpoint`: `INSERT INTO viewpoints ... ON CONFLICT (article_id,
persona_id) DO UPDATE SET viewpoint_text, key_insights, confidence_score,
model_used, generation_metadata, updated_at RETURNING id`.  The code defaults
`model_used` to `"gpt-4o-mini"` and `generation_metadata` to `{}` before the
query, so both paths store the defaulted values. -/
def saveViewpoint (db : DB) (v : ViewpointInput) : DB × Nat :=
  let modelUsed := v.modelUsed.getD "gpt-4o-mini"
  let meta := v.generationMetadata.getD "{}"
  match db.viewpoints.find? (fun r => r.articleId == v.articleId && r.personaId == v.personaId) with
  | some r =>
      ({ db with
          viewpoints := db.viewpoints.map (fun x =>
            if x.articleId == v.articleId && x.personaId == v.personaId then
              { x with viewpointText := v.viewpointText, keyInsights := v.keyInsights,
                       confidenceScore := v.confidenceScore, modelUsed := modelUsed,
                       generationMetadata := meta, updatedAt := db.now }
            else x),
          now := db.now + 1 }, r.id)
  | none =>
      ({ db with
          viewpoints := db.viewpoints ++
            [{ id := db.nextId, articleId := v.articleId, personaId := v.personaId,
               viewpointText := v.viewpointText, keyInsights := v.keyInsights,
               confidenceScore := v.confidenceScore, modelUsed := modelUsed,
               generationMetadata := meta, createdAt := db.now, updatedAt := db.now }],
          nextId := db.nextId + 1, now := db.now + 1 }, db.nextId)

/-- Row shape returned by `getArticlesNeedingViewpoints`. -/
structure NVRow where
  id : Nat
  title : String
  url : String
  rawContent : String
  shortSummary : String
  keyTakeaways : List String
  topicTags : List String
  relevanceScore : Int
  createdAt : Nat
deriving DecidableEq

/-- The row `getArticlesNeedingViewpoints` builds for an article joined with
its summary. -/
def nvRowOf (a : ArticleRow) (s : SummaryRow) : NVRow :=
  ⟨a.id, a.title, a.url, a.rawContent, s.shortSummary, s.keyTakeaways,
   s.topicTags, s.relevanceScore, a.createdAt⟩

/-- The `NOT IN` subquery of `getArticlesNeedingViewpoints`: does the article
already have a viewpoint from an enabled persona other than `newsday`? -/
def analystViewpointExists (db : DB) (articleId : Nat) : Bool :=
  db.viewpoints.any (fun v => v.articleId == articleId &&
    db.personas.any (fun p => p.id == v.personaId && p.slug != "newsday" && p.enabled))

/-- The join-and-filter part of `getArticlesNeedingViewpoints`: articles
joined to their summary, kept when `relevance_score >= 6` and no analyst
viewpoint exists, before `ORDER BY` and `LIMIT`. -/
def needingViewpointsAll (db : DB) : List NVRow :=
  db.articles.foldr (fun a acc =>
    (db.summaries.filterMap (fun s =>
      if s.articleId = a.id ∧ 6 ≤ s.relevanceScore ∧ analystViewpointExists db a.id = false
      then some (nvRowOf a s) else none)) ++ acc) []

/-- `ORDER BY s.relevance_score DESC, a.created_at DESC` as a comparison:
row `a` sorts no later than row `b`. -/
def nvBefore (a b : NVRow) : Bool :=
  b.relevanceScore < a.relevanceScore ||
    (a.relevanceScore == b.relevanceScore && decide (b.createdAt ≤ a.createdAt))

/-- Insert one row into a list sorted by `nvBefore`. -/
def insertNV (x : NVRow) : List NVRow → List NVRow
  | [] => [x]
  | y :: ys => if nvBefore x y then x :: y :: ys else y :: insertNV x ys

/-- Insertion sort by `nvBefore`, modelling the SQL `ORDER BY`. -/
def sortNV : List NVRow → List NVRow
  | [] => []
  | x :: xs => insertNV x (sortNV xs)

/-- `getArticlesNeedingViewpoints(limit = 20)`: join, filter on
`relevance_score >= 6` and absence of an analyst viewpoint, order, limit. -/
def getArticlesNeedingViewpoints (db : DB) (limit : Nat := 20) : List NVRow :=
  (sortNV (needingViewpointsAll db)).take limit

/-! ### Workflow step 3: duplicate filter (`filterContentStep`) -/

/-- The loop of `filterContentStep`: each candidate is checked with
`checkArticleExists(contentHash, url)` against the persisted articles; new
candidates are collected in order, duplicates only counted. -/
def filterContent (articles : List ArticleRow) (batch : List Candidate) :
    List Candidate × Nat :=
  batch.foldl (fun acc c =>
    if checkArticleExists articles c.contentHash c.url then (acc.1, acc.2 + 1)
    else (acc.1 ++ [c], acc.2)) ([], 0)

/-! ### Workflow step 4: article processing (`processArticlesStep`) -/

/-- Result of the regex `text.match(/\{[\s\S]*\}/)`: the substring from the
first `\x7b` to the last `\x7d`, when the latter comes strictly after the
former; otherwise no match. -/
def jsExtractJsonBlock (s : String) : Option String :=
  let cs := s.data
  match cs.findIdx? (· = '{') with
  | none => none
  | some i =>
      match cs.reverse.findIdx? (· = '}') with
      | none => none
      | some rj =>
          let j := cs.length - 1 - rj
          if i < j then some (String.mk ((cs.take (j + 1)).drop i)) else none

/-- An organization as the extraction JSON reports it. -/
structure RawOrg where
  name : String
  type : String
  confidence : Int
deriving DecidableEq

/-- A person as the extraction JSON reports it. -/
structure RawPerson where
  name : String
  title : Option String
  organization : Option String
  confidence : Int
deriving DecidableEq

/-- A technology as the extraction JSON reports it. -/
structure RawTech where
  name : String
  category : String
  vendor : Option String
  confidence : Int
deriving DecidableEq

/-- The parsed shape of a successful extraction response. -/
structure Extracted where
  organizations : List RawOrg
  people : List RawPerson
  technologies : List RawTech
deriving DecidableEq

/-- The parsed shape of a successful summary response; `takeaways`, `tags`
and `relevanceScore` may be absent, the step applies JS `||` defaults. -/
structure SummaryData where
  summary : String
  takeaways : Option (List String)
  tags : Option (List String)
  relevanceScore : Option Int
deriving DecidableEq

/-- `summaryData.relevanceScore || 5`: JS `||` treats both `undefined` and
`0` as falsy. -/
def effectiveScore (sd : SummaryData) : Int :=
  match sd.relevanceScore with
  | none => 5
  | some n => if n = 0 then 5 else n

/-- Inline organization normalization of `processArticlesStep` (lines
291-299): lowercase-trim lookup in the workflow alias table, falling back to
the original name. -/
def normalizeOrgWF (o : RawOrg) : NormOrg :=
  { canonicalName := (orgAliasesWF (jsLowerTrim o.name)).getD o.name,
    type := o.type, confidence := o.confidence }

/-- Inline person normalization (lines 301-313): only the free-text
organization field is normalized against the organization alias table. -/
def normalizePersonWF (p : RawPerson) : NormPerson :=
  { name := p.name, title := p.title,
    organization := p.organization.map (fun org => (orgAliasesWF (jsLowerTrim org)).getD org),
    confidence := p.confidence }

/-- Inline technology normalization (lines 315-324): the name is normalized
against the technology alias table, the vendor is passed through. -/
def normalizeTechWF (t : RawTech) : NormTech :=
  { canonicalName := (techAliasesWF (jsLowerTrim t.name)).getD t.name,
    category := t.category, vendor := t.vendor, confidence := t.confidence }

/-- Per-article outcome recorded by `processArticlesStep`, together with the
lists handed to `saveEntities` and the warnings the two `catch` blocks
log. -/
structure ProcInfo where
  articleId : Nat
  entitiesExtracted : Nat
  hasSummary : Bool
  savedOrgs : List NormOrg
  savedTechs : List NormTech
  extractWarned : Bool
  summaryWarned : Bool
deriving DecidableEq

/-- The extraction half of the per-article loop.  `parseE` stands for the
`JSON.parse` boundary on the extraction response (`none` models a parse
exception, which the surrounding `try/catch` turns into a logged warning);
when the regex finds no JSON block the branch is skipped silently, with no
warning. -/
def extractPhase (parseE : String → Option Extracted) (db1 : DB)
    (articleId : Nat) (extractText : String) :
    DB × Nat × List NormOrg × List NormTech × Bool :=
  match jsExtractJsonBlock extractText with
  | none => (db1, 0, [], [], false)
  | some block =>
      match parseE block with
      | none => (db1, 0, [], [], true)
      | some ex =>
          let orgs := ex.organizations.map normalizeOrgWF
          let ppl := ex.people.map normalizePersonWF
          let techs := ex.technologies.map normalizeTechWF
          (saveEntities db1 articleId orgs ppl techs,
           orgs.length + ppl.length + techs.length, orgs, techs, false)

/-- The summary half of the per-article loop: locate a JSON block, parse it,
and on success call `saveSummary` with the JS-defaulted fields. -/
def summaryPhase (parseS : String → Option SummaryData) (db2 : DB)
    (articleId : Nat) (summaryText : String) : DB × Bool × Bool :=
  match jsExtractJsonBlock summaryText with
  | none => (db2, false, false)
  | some block =>
      match parseS block with
      | none => (db2, false, true)
      | some sd =>
          (saveSummary db2 articleId sd.summary (sd.takeaways.getD [])
            (sd.tags.getD []) (effectiveScore sd), true, false)

/-- The body of the per-article loop of `processArticlesStep`: save the
article, then run the extraction phase and the summary phase. -/
def processOneArticle (parseE : String → Option Extracted)
    (parseS : String → Option SummaryData) (db : DB) (article : Candidate)
    (extractText summaryText : String) : DB × ProcInfo :=
  let (db1, articleId) := saveArticle db article
  let (db2, entities, savedOrgs, savedTechs, extractWarned) :=
    extractPhase parseE db1 articleId extractText
  let (db3, hasSummary, summaryWarned) :=
    summaryPhase parseS db2 articleId summaryText
  (db3, ⟨articleId, entities, hasSummary, savedOrgs, savedTechs,
         extractWarned, summaryWarned⟩)

/-- Run-level statistics of one ingestion run. -/
structure RunStats where
  duplicatesSkipped : Nat
  processed : List ProcInfo
deriving DecidableEq

/-- One ingestion run from the point where candidates have been fetched:
filter duplicates against the persisted articles, then process every
surviving candidate in order.  `extractTextOf` and `summaryTextOf` give the
AI response text for each candidate. -/
def runIngestion (parseE : String → Option Extracted)
    (parseS : String → Option SummaryData)
    (extractTextOf summaryTextOf : Candidate → String)
    (db : DB) (batch : List Candidate) : DB × RunStats :=
  let (newArticles, dups) := filterContent db.articles batch
  let (db1, infos) := newArticles.foldl
    (fun (acc : DB × List ProcInfo) c =>
      let (d, info) := processOneArticle parseE parseS acc.1 c
        (extractTextOf c) (summaryTextOf c)
      (d, acc.2 ++ [info])) (db, [])
  (db1, ⟨dups, infos⟩)

/-- The `processing_status` of the article with the given id. -/
def statusOf (db : DB) (articleId : Nat) : Option String :=
  (db.articles.find? (fun r => r.id == articleId)).map (·.processingStatus)

/-! ### Analyst routing (`routeToAnalyst`, `TOPIC_TO_ANALYST`) -/

/-- The `TOPIC_TO_ANALYST` record (lines 666-693): security and compliance
tags map to `drex-deford`, leadership and workforce tags to
`sarah-richardson`; everything else is unmapped. -/
def topicToAnalyst (t : String) : Option String :=
  match t with
  | "cybersecurity" | "security" | "ransomware" | "breach" | "zero-trust"
  | "hipaa" | "compliance" | "privacy" | "threat intelligence"
  | "incident response" => some "drex-deford"
  | "leadership" | "workforce" | "change management" | "culture" | "staffing"
  | "burnout" | "talent pipeline" | "retention" | "diversity" | "training"
  | "career development" => some "sarah-richardson"
  | _ => none

/-- The analyst a single tag votes for, after `tag.toLowerCase().trim()`. -/
def tagAnalyst (t : String) : Option String :=
  topicToAnalyst (jsLowerTrim t)

/-- `tagScores[analyst] = (tagScores[analyst] || 0) + 1` on a JS object:
an existing key is updated in place, a new key is appended (JS objects
enumerate string keys in insertion order). -/
def bumpScore : List (String × Nat) → String → List (String × Nat)
  | [], a => [(a, 1)]
  | (k, v) :: rest, a =>
      if k = a then (k, v + 1) :: rest else (k, v) :: bumpScore rest a

/-- One iteration of the scoring loop of `routeToAnalyst`. -/
def scoreStep (m : List (String × Nat)) (t : String) : List (String × Nat) :=
  match tagAnalyst t with
  | some a => bumpScore m a
  | none => m

/-- The score object after the scoring loop. -/
def tagScores (topicTags : List String) : List (String × Nat) :=
  topicTags.foldl scoreStep []

/-- The selection loop of `routeToAnalyst`: starting from
`bestAnalyst = "bill-russell"`, `bestScore = 0`, an entry replaces the
current best only when its score is strictly greater. -/
def pickBest (m : List (String × Nat)) : String :=
  (m.foldl (fun best p => if best.2 < p.2 then p else best) ("bill-russell", 0)).1

/-- `routeToAnalyst(topicTags)` (lines 699-721). -/
def routeToAnalyst (topicTags : List String) : String :=
  pickBest (tagScores topicTags)

/-- Number of tags that vote for `drex-deford`. -/
def dCount : List String → Nat
  | [] => 0
  | t :: rest =>
      (if tagAnalyst t = some "drex-deford" then 1 else 0) + dCount rest

/-- Number of tags that vote for `sarah-richardson`. -/
def sCount : List String → Nat
  | [] => 0
  | t :: rest =>
      (if tagAnalyst t = some "sarah-richardson" then 1 else 0) + sCount rest

/-- The analyst of the first tag that matches the routing table. -/
def firstAnalyst : List String → Option String
  | [] => none
  | t :: rest =>
      match tagAnalyst t with
      | some a => some a
      | none => firstAnalyst rest

/-! ### Date parsing (`parseDate`, `researcherAgent.ts` lines 458-505) -/

/-- A value of the JS `Date(year, month, day, hour, minute)` constructor,
kept as its components (`month` is 0-based as in JS). -/
structure JsDate where
  year : Nat
  month : Nat
  day : Nat
  hour : Nat
  minute : Nat
deriving DecidableEq

/-- The captures of the vendor-format regex
`/^(\w+)\s+(\d+),\s+(\d+)\s+(\d+):(\d+)(am|pm)$/i`. -/
structure FierceMatch where
  month : String
  day : Nat
  year : Nat
  hour : Nat
  minute : Nat
  ampm : String
deriving DecidableEq

/-- Evaluate the vendor-format regex on a string.  Every character class of
the pattern is disjoint from its successor, so greedy maximal-munch scanning
is exactly the regex semantics. -/
def matchFierce (s : String) : Option FierceMatch :=
  let cs := s.data
  let w := cs.takeWhile isWordChar
  let r1 := cs.dropWhile isWordChar
  let sp1 := r1.takeWhile isJsSpace
  let r2 := r1.dropWhile isJsSpace
  let d1 := r2.takeWhile Char.isDigit
  let r3 := r2.dropWhile Char.isDigit
  if w.isEmpty || sp1.isEmpty || d1.isEmpty then none else
  match r3 with
  | ',' :: r4 =>
      let sp2 := r4.takeWhile isJsSpace
      let r5 := r4.dropWhile isJsSpace
      let yr := r5.takeWhile Char.isDigit
      let r6 := r5.dropWhile Char.isDigit
      let sp3 := r6.takeWhile isJsSpace
      let r7 := r6.dropWhile isJsSpace
      let hh := r7.takeWhile Char.isDigit
      let r8 := r7.dropWhile Char.isDigit
      if sp2.isEmpty || yr.isEmpty || sp3.isEmpty || hh.isEmpty then none else
      match r8 with
      | ':' :: r9 =>
          let mm := r9.takeWhile Char.isDigit
          let r10 := r9.dropWhile Char.isDigit
          if mm.isEmpty then none else
          match r10 with
          | [c1, c2] =>
              if (c1.toLower = 'a' || c1.toLower = 'p') && c2.toLower = 'm' then
                some ⟨String.mk w, digitsToNat d1, digitsToNat yr,
                      digitsToNat hh, digitsToNat mm, String.mk [c1, c2]⟩
              else none
          | _ => none
      | _ => none
  | _ => none

/-- The `months` record of `parseDate`, looked up with the lowercased month
capture. -/
def monthIndex (m : String) : Option Nat :=
  match m with
  | "jan" => some 0
  | "feb" => some 1
  | "mar" => some 2
  | "apr" => some 3
  | "may" => some 4
  | "jun" => some 5
  | "jul" => some 6
  | "aug" => some 7
  | "sep" => some 8
  | "oct" => some 9
  | "nov" => some 10
  | "dec" => some 11
  | _ => none

/-- The hour adjustment of `parseDate`: `pm` adds 12 to hours below 12 and
`12am` becomes hour 0. -/
def fixHour (h : Nat) (ampm : String) : Nat :=
  let h1 := if jsToLower ampm == "pm" && decide (h < 12) then h + 12 else h
  if jsToLower ampm == "am" && h1 == 12 then 0 else h1

/-- `parseDate(dateStr)`.  `stdParse` is the JS `new Date(string)` boundary:
it returns the parsed date for the standard formats the runtime accepts and
`none` when `isNaN(date.getTime())`.  An absent or empty string is falsy and
returns `null` immediately; otherwise the standard parse is tried first and
then the vendor-format branch; anything else yields `null`. -/
def parseDate (stdParse : String → Option JsDate) : Option String → Option JsDate
  | none => none
  | some s =>
      if s = "" then none
      else
        match stdParse s with
        | some d => some d
        | none =>
            match matchFierce s with
            | none => none
            | some fm =>
                match monthIndex (jsToLower fm.month) with
                | none => none
                | some mi =>
                    some ⟨fm.year, mi, fm.day, fixHour fm.hour fm.ampm, fm.minute⟩

/-- The date fields of one RSS feed item. -/
structure FeedItem where
  pubDate : Option String := none
  isoDate : Option String := none
deriving DecidableEq

/-- JS `a || b` on two optional strings: the empty string is falsy. -/
def jsOrString (a b : Option String) : Option String :=
  match a with
  | some s => if s = "" then b else some s
  | none => b

/-- The published date `scrapeRssFeed` attaches to one item:
`parseDate(item.pubDate || item.isoDate)`, absent when parsing fails. -/
def itemPublishedDate (stdParse : String → Option JsDate) (it : FeedItem) :
    Option JsDate :=
  parseDate stdParse (jsOrString it.pubDate it.isoDate)

/-- The per-item mapping of `scrapeRssFeed` never rejects an item: every
feed item yields a candidate record, carrying an optional published date. -/
def scrapeItems (stdParse : String → Option JsDate) (items : List FeedItem) :
    List (Option JsDate) :=
  items.map (itemPublishedDate stdParse)

/-! ### Normalizer tool batch dedup (`entityNormalizerTool.ts`) -/

/-- The organization output shape of the normalizer tool. -/
structure ToolOrg where
  canonicalName : String
  originalName : String
  type : String
  confidence : Int
  wasNormalized : Bool
deriving DecidableEq

/-- The technology output shape of the normalizer tool. -/
structure ToolTech where
  canonicalName : String
  originalName : String
  category : String
  vendor : Option String
  confidence : Int
  wasNormalized : Bool
deriving DecidableEq

/-- Organization normalization in the tool (lines 142-153). -/
def toolNormalizeOrg (o : RawOrg) : ToolOrg :=
  let canonical := orgAliasesTool (jsLowerTrim o.name)
  { canonicalName := canonical.getD o.name, originalName := o.name,
    type := o.type, confidence := o.confidence, wasNormalized := canonical.isSome }

/-- Technology normalization in the tool (lines 172-190), including vendor
normalization against the organization aliases. -/
def toolNormalizeTech (t : RawTech) : ToolTech :=
  let canonical := techAliasesTool (jsLowerTrim t.name)
  { canonicalName := canonical.getD t.name, originalName := t.name,
    category := t.category,
    vendor := t.vendor.map (fun v => (orgAliasesTool (jsLowerTrim v)).getD v),
    confidence := t.confidence, wasNormalized := canonical.isSome }

/-- The JS idiom `self.filter((x, index, self) => index === self.findIndex(
(y) => y.key === x.key))`: an element is kept exactly when its index is the
first index carrying its key.  `full` is the whole array, `i` the index of
the head of the remaining suffix. -/
def keepFirstsAux (full : List α) (key : α → String) : List α → Nat → List α
  | [], _ => []
  | x :: xs, i =>
      if full.findIdx (fun y => key y == key x) = i
      then x :: keepFirstsAux full key xs (i + 1)
      else keepFirstsAux full key xs (i + 1)

/-- JS first-occurrence dedup of a whole array by a string key. -/
def keepFirsts (l : List α) (key : α → String) : List α :=
  keepFirstsAux l key l 0

/-- `uniqueOrgs` (lines 193-196): normalized organizations deduplicated by
canonical name, first occurrence kept. -/
def uniqueOrgs (orgs : List RawOrg) : List ToolOrg :=
  keepFirsts (orgs.map toolNormalizeOrg) (·.canonicalName)

/-- `uniqueTech` (lines 198-201): normalized technologies deduplicated by
canonical name, first occurrence kept. -/
def uniqueTech (techs : List RawTech) : List ToolTech :=
  keepFirsts (techs.map toolNormalizeTech) (·.canonicalName)

/-! ### Concrete fixtures used by witnesses and counterexamples -/

/-- A persisted article row used as a concrete fixture. -/
def articleFix : ArticleRow :=
  { id := 0, sourceId := none, url := "https://x/1", title := "T1",
    author := none, publishedDate := none, rawContent := "old body",
    contentHash := "h1", processingStatus := "summarized", createdAt := 0,
    updatedAt := 0 }

/-- A store holding exactly the fixture article. -/
def dbFix : DB := { articles := [articleFix], nextId := 1, now := 1 }

/-- A refetch of the fixture article: same URL, new content and hash. -/
def candFix : Candidate :=
  ⟨"https://x/1", "T1b", "new body", "h9", none, none, none⟩

/-- A summarized article fixture for the viewpoint-selection query. -/
def articleNV : ArticleRow :=
  { id := 1, sourceId := none, url := "https://x/2", title := "T2",
    author := none, publishedDate := none, rawContent := "body2",
    contentHash := "h2", processingStatus := "summarized", createdAt := 0,
    updatedAt := 0 }

/-- A summary fixture with relevance score exactly 6. -/
def summaryNV : SummaryRow :=
  { articleId := 1, shortSummary := "s", keyTakeaways := [], topicTags := [],
    relevanceScore := 6, createdAt := 0, updatedAt := 0 }

/-- A store with one summarized article at the threshold and no viewpoints. -/
def dbNV : DB :=
  { articles := [articleNV], summaries := [summaryNV], nextId := 2, now := 1 }

/-- A summary payload fixture. -/
def sdFix : SummaryData := ⟨"sum", none, none, some 7⟩

/-- A concrete summary-parse boundary that accepts exactly the block
`\x7bs\x7d`. -/
def parseSFix : String → Option SummaryData :=
  fun b => if b = "{s}" then some sdFix else none

/-- A concrete extraction-parse boundary that accepts exactly the block
`\x7be\x7d`, reporting two spellings of the same organization. -/
def parseEFix : String → Option Extracted :=
  fun b => if b = "{e}" then
    some ⟨[⟨"Cerner", "vendor", 9⟩, ⟨"Oracle Cerner", "vendor", 8⟩], [], []⟩
  else none

/-! ### Shared helper lemmas -/

/-- `find?` returns the unique element satisfying a predicate when at most
one element satisfies it. -/
theorem find?_eq_of_countP_le_one {α : Type} {p : α → Bool} {l : List α} {r : α}
    (huniq : l.countP p ≤ 1) (hr : r ∈ l) (hp : p r) : l.find? p = some r := by
  induction l with
  | nil => cases hr
  | cons x xs ih =>
      rw [List.countP_cons] at huniq
      by_cases hx : p x
      · rw [List.find?_cons_of_pos _ hx]
        rcases List.mem_cons.mp hr with h | h
        · rw [h]
        · exfalso
          have hpos : 0 < xs.countP p := List.countP_pos_iff.mpr ⟨r, h, hp⟩
          simp only [hx, if_true] at huniq
          omega
      · rw [List.find?_cons_of_neg _ hx]
        rcases List.mem_cons.mp hr with h | h
        · subst h; exact absurd hp (by simp [hx])
        · exact ih (by simpa [hx] using huniq) h

/-- Two distinct members both satisfying a predicate force a count of at
least two. -/
theorem two_le_countP_of_mem {α : Type} {p : α → Bool} {l : List α} {a b : α}
    (ha : a ∈ l) (hb : b ∈ l) (hab : a ≠ b) (hpa : p a) (hpb : p b) :
    2 ≤ l.countP p := by
  induction l with
  | nil => cases ha
  | cons x xs ih =>
      rw [List.countP_cons]
      rcases List.mem_cons.mp ha with h1 | h1
      · subst h1
        have hbx : b ∈ xs := by
          rcases List.mem_cons.mp hb with h2 | h2
          · exact absurd h2.symm hab
          · exact h2
        have hpos : 0 < xs.countP p := List.countP_pos_iff.mpr ⟨b, hbx, hpb⟩
        simp only [hpa, if_true]
        omega
      · rcases List.mem_cons.mp hb with h2 | h2
        · subst h2
          have hpos : 0 < xs.countP p := List.countP_pos_iff.mpr ⟨a, h1, hpa⟩
          simp only [hpb, if_true]
          omega
        · have := ih h1 h2
          omega

/-- Unfolding of the duplicate-filter fold with an arbitrary accumulator. -/
theorem filterContent_go (articles : List ArticleRow) (batch : List Candidate) :
    ∀ (acc : List Candidate) (n : Nat),
      batch.foldl (fun acc c =>
        if checkArticleExists articles c.contentHash c.url then (acc.1, acc.2 + 1)
        else (acc.1 ++ [c], acc.2)) (acc, n) =
      (acc ++ batch.filter (fun c => !checkArticleExists articles c.contentHash c.url),
       n + batch.countP (fun c => checkArticleExists articles c.contentHash c.url)) := by
  induction batch with
  | nil => intro acc n; simp
  | cons c cs ih =>
      intro acc n
      by_cases h : checkArticleExists articles c.contentHash c.url
      · rw [List.foldl_cons, if_pos h]
        rw [ih acc (n + 1)]
        simp [List.filter_cons, List.countP_cons, h]
        omega
      · rw [List.foldl_cons, if_neg h]
        rw [ih (acc ++ [c]) n]
        simp [List.filter_cons, List.countP_cons, h]

/-- The duplicate filter keeps exactly the candidates whose hash and URL are
both absent from the persisted articles, and counts the rest. -/
theorem filterContent_eq (articles : List ArticleRow) (batch : List Candidate) :
    filterContent articles batch =
      (batch.filter (fun c => !checkArticleExists articles c.contentHash c.url),
       batch.countP (fun c => checkArticleExists articles c.contentHash c.url)) := by
  unfold filterContent
  rw [filterContent_go articles batch [] 0]
  simp

/-! ### C1 -/

/-- C1 (corrected).  A candidate is treated as a duplicate exactly when its
content hash or its URL already appears among the Articles persisted before
the filter step; the decision never takes the rest of the fetched batch into
account. -/
theorem C1_dedup_checks_persisted_only (articles : List ArticleRow)
    (batch : List Candidate) :
    filterContent articles batch =
      (batch.filter (fun c => !checkArticleExists articles c.contentHash c.url),
       batch.countP (fun c => checkArticleExists articles c.contentHash c.url)) :=
  filterContent_eq articles batch

/-- C1 counterexample.  Two candidates with the same content, fetched in one
batch against an empty store: both pass the filter, both are enriched
(two processed entries) and both are persisted, leaving two Article rows
with the same content hash — refuting that the same content is never
enriched and persisted more than once. -/
theorem C1_counterexample :
    (filterContent [] [⟨"https://x/1", "T1", "same body", "h1", none, none, none⟩,
        ⟨"https://x/2", "T2", "same body", "h1", none, none, none⟩]).1.length = 2 ∧
    (runIngestion (fun _ => none) (fun _ => none) (fun _ => "") (fun _ => "") {}
        [⟨"https://x/1", "T1", "same body", "h1", none, none, none⟩,
         ⟨"https://x/2", "T2", "same body", "h1", none, none, none⟩]).2.processed.length = 2 ∧
    ((runIngestion (fun _ => none) (fun _ => none) (fun _ => "") (fun _ => "") {}
        [⟨"https://x/1", "T1", "same body", "h1", none, none, none⟩,
         ⟨"https://x/2", "T2", "same body", "h1", none, none, none⟩]).1.articles.filter
      (fun r => r.contentHash == "h1")).length = 2 := by
  decide

/-! ### C2 -/

/-- C2 (confirmed).  When every fetched candidate's URL or content hash is
already persisted, the second run filters out every candidate as a
duplicate: no enrichment happens, no `saveArticle` call happens, the store
is returned unchanged and zero new Article rows are created. -/
theorem C2_second_run_creates_nothing (parseE : String → Option Extracted)
    (parseS : String → Option SummaryData)
    (extractTextOf summaryTextOf : Candidate → String)
    (db : DB) (batch : List Candidate)
    (h : ∀ c ∈ batch, checkArticleExists db.articles c.contentHash c.url = true) :
    runIngestion parseE parseS extractTextOf summaryTextOf db batch =
      (db, ⟨batch.length, []⟩) := by
  unfold runIngestion
  rw [filterContent_eq]
  have hfilter : batch.filter
      (fun c => !checkArticleExists db.articles c.contentHash c.url) = [] := by
    rw [List.filter_eq_nil_iff]
    intro c hc
    simp [h c hc]
  have hcount : batch.countP
      (fun c => checkArticleExists db.articles c.contentHash c.url) = batch.length := by
    rw [List.countP_eq_length]
    exact h
  rw [hfilter, hcount]
  rfl

/-- Witness for C2 at a concrete store and batch. -/
theorem C2_witness :
    (∀ c ∈ [candFix], checkArticleExists dbFix.articles c.contentHash c.url = true) ∧
    runIngestion (fun _ => none) (fun _ => none) (fun _ => "") (fun _ => "")
      dbFix [candFix] = (dbFix, ⟨1, []⟩) :=
  ⟨by decide, C2_second_run_creates_nothing _ _ _ _ _ _ (by decide)⟩

/-! ### C10 -/

/-- C10 (confirmed).  When `saveArticle` is called with a URL that already
exists (under the UNIQUE url constraint), the upsert returns the existing
row's id, adds no row, leaves rows with other URLs untouched, and on the
conflicting row changes only title, raw content, content hash (and the
timestamp): processing status, author, published date, source id and
creation time are unchanged. -/
theorem C10_saveArticle_upsert_frame (db : DB) (a : Candidate) (r : ArticleRow)
    (hr : r ∈ db.articles) (hurl : r.url = a.url)
    (huniq : db.articles.countP (fun x => x.url == a.url) ≤ 1) :
    (saveArticle db a).2 = r.id ∧
    (saveArticle db a).1.articles.length = db.articles.length ∧
    (∀ x ∈ db.articles, x.url ≠ a.url → x ∈ (saveArticle db a).1.articles) ∧
    (∀ x ∈ (saveArticle db a).1.articles, x.url = a.url →
      x.id = r.id ∧ x.processingStatus = r.processingStatus ∧
      x.author = r.author ∧ x.publishedDate = r.publishedDate ∧
      x.sourceId = r.sourceId ∧ x.createdAt = r.createdAt ∧
      x.title = a.title ∧ x.rawContent = a.content ∧
      x.contentHash = a.contentHash) := by
  have hfind : db.articles.find? (fun x => x.url == a.url) = some r :=
    find?_eq_of_countP_le_one huniq hr (by simp [hurl])
  unfold saveArticle
  rw [hfind]
  refine ⟨rfl, by simp, ?_, ?_⟩
  · intro x hx hne
    refine List.mem_map.mpr ⟨x, hx, ?_⟩
    simp [hne]
  · intro x hx hxurl
    rcases List.mem_map.mp hx with ⟨y, hy, hfy⟩
    by_cases hyeq : y.url = a.url
    · have hyr : y = r := by
        by_contra hne
        have h2 := two_le_countP_of_mem hy hr hne
          (p := fun x => x.url == a.url) (by simp [hyeq]) (by simp [hurl])
        omega
      subst hyr
      rw [if_pos (by simp [hyeq])] at hfy
      subst hfy
      exact ⟨rfl, rfl, rfl, rfl, rfl, rfl, rfl, rfl, rfl⟩
    · rw [if_neg (by simp [hyeq])] at hfy
      subst hfy
      exact absurd hxurl hyeq

/-- Witness for C10: the fixture article is refetched with new content; the
id comes back, the status stays `summarized` and only the content columns
change. -/
theorem C10_witness :
    (articleFix ∈ dbFix.articles ∧ articleFix.url = candFix.url ∧
      dbFix.articles.countP (fun x => x.url == candFix.url) ≤ 1) ∧
    (saveArticle dbFix candFix).2 = articleFix.id ∧
    (∀ x ∈ (saveArticle dbFix candFix).1.articles, x.url = candFix.url →
      x.processingStatus = articleFix.processingStatus) :=
  ⟨⟨by decide, by decide, by decide⟩,
   (C10_saveArticle_upsert_frame dbFix candFix articleFix (by decide) (by decide)
      (by decide)).1,
   fun x hx hxu =>
     ((C10_saveArticle_upsert_frame dbFix candFix articleFix (by decide) (by decide)
        (by decide)).2.2.2 x hx hxu).2.1⟩

/-! ### C4 -/

/-- The number of viewpoint rows carrying the key of `v` after one
`saveViewpoint` call: an absent key is inserted, an existing key count is
unchanged. -/
theorem saveViewpoint_count (db : DB) (v : ViewpointInput) :
    (saveViewpoint db v).1.viewpoints.countP
      (fun x => x.articleId == v.articleId && x.personaId == v.personaId) =
    if db.viewpoints.countP
        (fun x => x.articleId == v.articleId && x.personaId == v.personaId) = 0
    then 1
    else db.viewpoints.countP
        (fun x => x.articleId == v.articleId && x.personaId == v.personaId) := by
  unfold saveViewpoint
  cases hf : db.viewpoints.find?
      (fun r => r.articleId == v.articleId && r.personaId == v.personaId) with
  | none =>
      have h0 : db.viewpoints.countP
          (fun x => x.articleId == v.articleId && x.personaId == v.personaId) = 0 :=
        List.countP_eq_zero.mpr (List.find?_eq_none.mp hf)
      simp [h0, List.countP_append]
  | some r =>
      have hmem := List.mem_of_find?_eq_some hf
      have hpr := List.find?_some hf
      have hpos : 0 < db.viewpoints.countP
          (fun x => x.articleId == v.articleId && x.personaId == v.personaId) :=
        List.countP_pos_iff.mpr ⟨r, hmem, hpr⟩
      have hpres : (db.viewpoints.map (fun x =>
          if x.articleId == v.articleId && x.personaId == v.personaId then
            { x with viewpointText := v.viewpointText, keyInsights := v.keyInsights,
                     confidenceScore := v.confidenceScore,
                     modelUsed := v.modelUsed.getD "gpt-4o-mini",
                     generationMetadata := v.generationMetadata.getD "{}",
                     updatedAt := db.now }
          else x)).countP
            (fun x => x.articleId == v.articleId && x.personaId == v.personaId) =
          db.viewpoints.countP
            (fun x => x.articleId == v.articleId && x.personaId == v.personaId) := by
        rw [List.countP_map]
        refine List.countP_congr ?_
        intro x _
        simp only [Function.comp_apply]
        by_cases hc : (x.articleId == v.articleId && x.personaId == v.personaId) = true
        · rw [if_pos hc]
        · rw [if_neg hc]
      rw [hpres, if_neg (by omega)]

/-- After any `saveViewpoint` call, every row carrying the key of `v` holds
exactly the payload of `v` (on the insert path the inserted row does, and no
other key row exists; on the update path every key row is overwritten). -/
theorem saveViewpoint_payload (db : DB) (v : ViewpointInput) :
    ∀ r ∈ (saveViewpoint db v).1.viewpoints,
      r.articleId = v.articleId → r.personaId = v.personaId →
      r.viewpointText = v.viewpointText ∧ r.keyInsights = v.keyInsights ∧
      r.confidenceScore = v.confidenceScore ∧
      r.modelUsed = v.modelUsed.getD "gpt-4o-mini" ∧
      r.generationMetadata = v.generationMetadata.getD "{}" := by
  unfold saveViewpoint
  cases hf : db.viewpoints.find?
      (fun r => r.articleId == v.articleId && r.personaId == v.personaId) with
  | none =>
      intro r hr ha hp
      rcases List.mem_append.mp hr with h | h
      · exact absurd (by simp [ha, hp]) (List.find?_eq_none.mp hf r h)
      · simp only [List.mem_singleton] at h
        subst h
        exact ⟨rfl, rfl, rfl, rfl, rfl⟩
  | some r0 =>
      intro r hr ha hp
      rcases List.mem_map.mp hr with ⟨y, hy, hfy⟩
      by_cases hc : (y.articleId == v.articleId && y.personaId == v.personaId) = true
      · rw [if_pos hc] at hfy
        subst hfy
        exact ⟨rfl, rfl, rfl, rfl, rfl⟩
      · rw [if_neg hc] at hfy
        subst hfy
        exact absurd (by simp [ha, hp]) hc

/-- C4 (confirmed).  Saving two viewpoints for the same `(articleId,
personaId)` pair (under the UNIQUE constraint on that pair) leaves exactly
one row with that key, and that row carries the second call's text,
insights, confidence score, model and metadata. -/
theorem C4_saveViewpoint_upsert (db : DB) (v1 v2 : ViewpointInput)
    (ha : v1.articleId = v2.articleId) (hp : v1.personaId = v2.personaId)
    (huniq : db.viewpoints.countP
      (fun x => x.articleId == v2.articleId && x.personaId == v2.personaId) ≤ 1) :
    (saveViewpoint (saveViewpoint db v1).1 v2).1.viewpoints.countP
      (fun x => x.articleId == v2.articleId && x.personaId == v2.personaId) = 1 ∧
    (∀ r ∈ (saveViewpoint (saveViewpoint db v1).1 v2).1.viewpoints,
      r.articleId = v2.articleId → r.personaId = v2.personaId →
      r.viewpointText = v2.viewpointText ∧ r.keyInsights = v2.keyInsights ∧
      r.confidenceScore = v2.confidenceScore ∧
      r.modelUsed = v2.modelUsed.getD "gpt-4o-mini" ∧
      r.generationMetadata = v2.generationMetadata.getD "{}") := by
  have h1 := saveViewpoint_count db v1
  rw [ha, hp] at h1
  have hcount1 : (saveViewpoint db v1).1.viewpoints.countP
      (fun x => x.articleId == v2.articleId && x.personaId == v2.personaId) = 1 := by
    rw [h1]
    split
    · rfl
    · omega
  have h2 := saveViewpoint_count (saveViewpoint db v1).1 v2
  rw [hcount1] at h2
  refine ⟨by rw [h2]; rfl, saveViewpoint_payload (saveViewpoint db v1).1 v2⟩

/-- Witness for C4: two saves for pair `(7, 3)` on an empty store leave one
row holding the second payload. -/
theorem C4_witness :
    ((⟨7, 3, "first take", ["a"], 1, none, none⟩ : ViewpointInput).articleId =
      (⟨7, 3, "second take", ["b"], 2, some "gpt-4o", none⟩ : ViewpointInput).articleId ∧
     (⟨7, 3, "first take", ["a"], 1, none, none⟩ : ViewpointInput).personaId =
      (⟨7, 3, "second take", ["b"], 2, some "gpt-4o", none⟩ : ViewpointInput).personaId ∧
     (({} : DB)).viewpoints.countP (fun x => x.articleId == 7 && x.personaId == 3) ≤ 1) ∧
    (saveViewpoint (saveViewpoint {} ⟨7, 3, "first take", ["a"], 1, none, none⟩).1
        ⟨7, 3, "second take", ["b"], 2, some "gpt-4o", none⟩).1.viewpoints.countP
      (fun x => x.articleId == 7 && x.personaId == 3) = 1 ∧
    (∀ r ∈ (saveViewpoint (saveViewpoint {} ⟨7, 3, "first take", ["a"], 1, none, none⟩).1
        ⟨7, 3, "second take", ["b"], 2, some "gpt-4o", none⟩).1.viewpoints,
      r.articleId = 7 → r.personaId = 3 → r.viewpointText = "second take") :=
  ⟨⟨rfl, rfl, by decide⟩,
   (C4_saveViewpoint_upsert {} ⟨7, 3, "first take", ["a"], 1, none, none⟩
      ⟨7, 3, "second take", ["b"], 2, some "gpt-4o", none⟩ rfl rfl (by decide)).1,
   fun r hr ha hp =>
     ((C4_saveViewpoint_upsert {} ⟨7, 3, "first take", ["a"], 1, none, none⟩
        ⟨7, 3, "second take", ["b"], 2, some "gpt-4o", none⟩ rfl rfl (by decide)).2
       r hr ha hp).1⟩

/-! ### C3 -/

/-- Junction inserts do not touch the organizations table. -/
theorem linkOrg_organizations (db : DB) (a o : Nat) (c : Int) :
    (linkOrg db a o c).organizations = db.organizations := by
  unfold linkOrg
  split <;> rfl

/-- Status updates do not touch the organizations table. -/
theorem setStatus_organizations (db : DB) (a : Nat) (s : String) :
    (setStatus db a s).organizations = db.organizations := rfl

/-- How one organization upsert changes the number of rows named `target`:
inserting a missing name named `target` brings the count to one, everything
else leaves it unchanged. -/
theorem upsertOrg_count (db : DB) (name ty target : String) :
    (upsertOrg db name ty).1.organizations.countP
      (fun x => x.canonicalName == target) =
    if name = target ∧
        db.organizations.countP (fun x => x.canonicalName == target) = 0
    then 1
    else db.organizations.countP (fun x => x.canonicalName == target) := by
  unfold upsertOrg
  cases hf : db.organizations.find? (fun o => o.canonicalName == name) with
  | some o =>
      have hmem := List.mem_of_find?_eq_some hf
      have hpo := List.find?_some hf
      have hpres : (db.organizations.map (fun x =>
          if x.canonicalName == name then { x with updatedAt := db.now } else x)).countP
            (fun x => x.canonicalName == target) =
          db.organizations.countP (fun x => x.canonicalName == target) := by
        rw [List.countP_map]
        refine List.countP_congr ?_
        intro x _
        simp only [Function.comp_apply]
        by_cases hc : (x.canonicalName == name) = true
        · rw [if_pos hc]
        · rw [if_neg hc]
      simp only [hpres]
      rw [if_neg ?_]
      rintro ⟨he, h0⟩
      subst he
      have : 0 < db.organizations.countP (fun x => x.canonicalName == name) :=
        List.countP_pos_iff.mpr ⟨o, hmem, hpo⟩
      omega
  | none =>
      have h0 : db.organizations.countP (fun x => x.canonicalName == name) = 0 :=
        List.countP_eq_zero.mpr (List.find?_eq_none.mp hf)
      by_cases he : name = target
      · subst he
        rw [if_pos ⟨rfl, h0⟩]
        simp [List.countP_append, h0]
      · rw [if_neg (by rintro ⟨h, _⟩; exact he h)]
        simp [List.countP_append, he]

/-- `saveEntities` with a single organization and no people or technologies
changes the `target` count exactly as the underlying upsert does. -/
theorem saveEntities_org_count_single (db : DB) (aid : Nat) (o : NormOrg)
    (target : String) :
    (saveEntities db aid [o] [] []).organizations.countP
      (fun x => x.canonicalName == target) =
    if o.canonicalName = target ∧
        db.organizations.countP (fun x => x.canonicalName == target) = 0
    then 1
    else db.organizations.countP (fun x => x.canonicalName == target) := by
  unfold saveEntities
  simp only [List.foldl_cons, List.foldl_nil]
  rw [setStatus_organizations]
  unfold saveOrgEntry
  cases h : upsertOrg db o.canonicalName o.type with
  | mk db1 oid =>
      have := upsertOrg_count db o.canonicalName o.type target
      rw [h] at this
      simpa [linkOrg_organizations] using this

/-- C3 (confirmed).  Three articles mention an organization as any casing
and spacing of "Cerner", "Cerner Corporation" and "Oracle Cerner"; the
workflow normalization maps each mention to the canonical name
"Oracle Health", and after the three `saveEntities` persistence calls the
store holds exactly one organization row named "Oracle Health" (given the
UNIQUE canonical-name constraint beforehand). -/
theorem C3_cerner_resolves_to_one_row (db : DB) (aid1 aid2 aid3 : Nat)
    (o1 o2 o3 : RawOrg)
    (h1 : jsLowerTrim o1.name = "cerner" ∨
      jsLowerTrim o1.name = "cerner corporation" ∨
      jsLowerTrim o1.name = "oracle cerner")
    (h2 : jsLowerTrim o2.name = "cerner" ∨
      jsLowerTrim o2.name = "cerner corporation" ∨
      jsLowerTrim o2.name = "oracle cerner")
    (h3 : jsLowerTrim o3.name = "cerner" ∨
      jsLowerTrim o3.name = "cerner corporation" ∨
      jsLowerTrim o3.name = "oracle cerner")
    (huniq : db.organizations.countP
      (fun x => x.canonicalName == "Oracle Health") ≤ 1) :
    (normalizeOrgWF o1).canonicalName = "Oracle Health" ∧
    (normalizeOrgWF o2).canonicalName = "Oracle Health" ∧
    (normalizeOrgWF o3).canonicalName = "Oracle Health" ∧
    (saveEntities (saveEntities (saveEntities db aid1 [normalizeOrgWF o1] [] [])
        aid2 [normalizeOrgWF o2] [] []) aid3
        [normalizeOrgWF o3] [] []).organizations.countP
      (fun x => x.canonicalName == "Oracle Health") = 1 := by
  have norm : ∀ o : RawOrg, jsLowerTrim o.name = "cerner" ∨
      jsLowerTrim o.name = "cerner corporation" ∨
      jsLowerTrim o.name = "oracle cerner" →
      (normalizeOrgWF o).canonicalName = "Oracle Health" := by
    intro o h
    unfold normalizeOrgWF
    rcases h with h | h | h <;> rw [h] <;> rfl
  have n1 := norm o1 h1
  have n2 := norm o2 h2
  have n3 := norm o3 h3
  refine ⟨n1, n2, n3, ?_⟩
  have c1 := saveEntities_org_count_single db aid1 (normalizeOrgWF o1) "Oracle Health"
  rw [n1] at c1
  have hcount1 : (saveEntities db aid1 [normalizeOrgWF o1] [] []).organizations.countP
      (fun x => x.canonicalName == "Oracle Health") = 1 := by
    rw [c1]
    split
    · rfl
    · rename_i hcond
      simp only [eq_self_iff_true, true_and] at hcond
      omega
  have c2 := saveEntities_org_count_single (saveEntities db aid1 [normalizeOrgWF o1] [] [])
    aid2 (normalizeOrgWF o2) "Oracle Health"
  rw [n2, hcount1] at c2
  have hcount2 : (saveEntities (saveEntities db aid1 [normalizeOrgWF o1] [] [])
      aid2 [normalizeOrgWF o2] [] []).organizations.countP
      (fun x => x.canonicalName == "Oracle Health") = 1 := by
    rw [c2]
    simp
  have c3 := saveEntities_org_count_single
    (saveEntities (saveEntities db aid1 [normalizeOrgWF o1] [] [])
      aid2 [normalizeOrgWF o2] [] []) aid3 (normalizeOrgWF o3) "Oracle Health"
  rw [n3, hcount2] at c3
  rw [c3]
  simp

/-- Witness for C3: the three alias spellings in mixed case with padding,
from an empty store. -/
theorem C3_witness :
    (jsLowerTrim " CeRnEr " = "cerner" ∧
     jsLowerTrim "Cerner CORPORATION" = "cerner corporation" ∧
     jsLowerTrim " oracle Cerner" = "oracle cerner" ∧
     ({} : DB).organizations.countP (fun x => x.canonicalName == "Oracle Health") ≤ 1) ∧
    (saveEntities (saveEntities (saveEntities {} 1
        [normalizeOrgWF ⟨" CeRnEr ", "vendor", 9⟩] [] [])
        2 [normalizeOrgWF ⟨"Cerner CORPORATION", "vendor", 8⟩] [] []) 3
        [normalizeOrgWF ⟨" oracle Cerner", "vendor", 7⟩] [] []).organizations.countP
      (fun x => x.canonicalName == "Oracle Health") = 1 :=
  ⟨⟨by decide, by decide, by decide, by decide⟩,
   (C3_cerner_resolves_to_one_row {} 1 2 3 ⟨" CeRnEr ", "vendor", 9⟩
      ⟨"Cerner CORPORATION", "vendor", 8⟩ ⟨" oracle Cerner", "vendor", 7⟩
      (Or.inl (by decide)) (Or.inr (Or.inl (by decide)))
      (Or.inr (Or.inr (by decide))) (by decide)).2.2.2⟩

/-! ### C5 -/

/-- Membership characterization of the join-and-filter stage, generalized
over the article list being folded. -/
theorem mem_needingViewpoints_go (db : DB) (arts : List ArticleRow) (r : NVRow) :
    r ∈ arts.foldr (fun a acc =>
      (db.summaries.filterMap (fun s =>
        if s.articleId = a.id ∧ 6 ≤ s.relevanceScore ∧
            analystViewpointExists db a.id = false
        then some (nvRowOf a s) else none)) ++ acc) [] ↔
    ∃ a, a ∈ arts ∧ ∃ s, s ∈ db.summaries ∧
      s.articleId = a.id ∧ 6 ≤ s.relevanceScore ∧
      analystViewpointExists db a.id = false ∧ r = nvRowOf a s := by
  induction arts with
  | nil => simp
  | cons a as ih =>
      simp only [List.foldr_cons, List.mem_append, ih, List.mem_filterMap]
      constructor
      · rintro (⟨s, hs, hf⟩ | ⟨a2, ha2, rest⟩)
        · split at hf
          · rename_i hcond
            cases hf
            exact ⟨a, List.mem_cons_self a as, s, hs, hcond.1, hcond.2.1,
              hcond.2.2, rfl⟩
          · cases hf
        · exact ⟨a2, List.mem_cons_of_mem _ ha2, rest⟩
      · rintro ⟨a2, ha2, s, hs, hd1, hd2, hd3, hd4⟩
        rcases List.mem_cons.mp ha2 with h | h
        · subst h
          exact Or.inl ⟨s, hs, by rw [if_pos ⟨hd1, hd2, hd3⟩, hd4]⟩
        · exact Or.inr ⟨a2, h, s, hs, hd1, hd2, hd3, hd4⟩

/-- Sorted insertion preserves membership. -/
theorem mem_insertNV (x y : NVRow) (l : List NVRow) :
    x ∈ insertNV y l ↔ x = y ∨ x ∈ l := by
  induction l with
  | nil => simp [insertNV]
  | cons z zs ih =>
      unfold insertNV
      split
      · simp
      · simp only [List.mem_cons, ih]
        tauto

/-- The `ORDER BY` sort preserves membership. -/
theorem mem_sortNV (x : NVRow) (l : List NVRow) : x ∈ sortNV l ↔ x ∈ l := by
  induction l with
  | nil => simp [sortNV]
  | cons z zs ih => simp [sortNV, mem_insertNV, ih]

/-- Sorted insertion adds one element. -/
theorem length_insertNV (y : NVRow) (l : List NVRow) :
    (insertNV y l).length = l.length + 1 := by
  induction l with
  | nil => rfl
  | cons z zs ih =>
      unfold insertNV
      split
      · rfl
      · simp [ih]

/-- The `ORDER BY` sort preserves length. -/
theorem length_sortNV (l : List NVRow) : (sortNV l).length = l.length := by
  induction l with
  | nil => rfl
  | cons z zs ih => simp [sortNV, length_insertNV, ih]

/-- C5 (confirmed).  `getArticlesNeedingViewpoints` never returns a row
whose relevance score is below 6 (in particular never 5), and an article
that has a summary with score exactly 6 and no analyst viewpoint yet is
selected by the query, reaching the returned page whenever the qualifying
rows fit in the limit. -/
theorem C5_threshold_gating (db : DB) (limit : Nat) :
    (∀ r ∈ getArticlesNeedingViewpoints db limit, ¬ r.relevanceScore < 6) ∧
    (∀ a ∈ db.articles, ∀ s ∈ db.summaries, s.articleId = a.id →
      s.relevanceScore = 6 → analystViewpointExists db a.id = false →
      nvRowOf a s ∈ needingViewpointsAll db ∧
      ((needingViewpointsAll db).length ≤ limit →
        nvRowOf a s ∈ getArticlesNeedingViewpoints db limit)) := by
  constructor
  · intro r hr
    have h1 : r ∈ sortNV (needingViewpointsAll db) := List.mem_of_mem_take hr
    have h2 : r ∈ needingViewpointsAll db := (mem_sortNV r _).mp h1
    rcases (mem_needingViewpoints_go db db.articles r).mp h2 with
      ⟨a, _, s, _, _, hscore, _, hr2⟩
    subst hr2
    simp only [nvRowOf]
    omega
  · intro a ha s hs hsid hscore hnv
    have hmem : nvRowOf a s ∈ needingViewpointsAll db :=
      (mem_needingViewpoints_go db db.articles (nvRowOf a s)).mpr
        ⟨a, ha, s, hs, hsid, by omega, hnv, rfl⟩
    refine ⟨hmem, fun hlen => ?_⟩
    unfold getArticlesNeedingViewpoints
    rw [List.take_of_length_le (by rw [length_sortNV]; exact hlen)]
    exact (mem_sortNV _ _).mpr hmem

/-- Witness for C5: a store with one article summarized at score 6 and no
viewpoints; the query returns its row. -/
theorem C5_witness :
    (articleNV ∈ dbNV.articles ∧ summaryNV ∈ dbNV.summaries ∧
     summaryNV.articleId = articleNV.id ∧ summaryNV.relevanceScore = 6 ∧
     analystViewpointExists dbNV articleNV.id = false ∧
     (needingViewpointsAll dbNV).length ≤ 20) ∧
    nvRowOf articleNV summaryNV ∈ getArticlesNeedingViewpoints dbNV 20 :=
  ⟨⟨by decide, by decide, by decide, by decide, by decide, by decide⟩,
   ((C5_threshold_gating dbNV 20).2 articleNV (by decide) summaryNV (by decide)
      (by decide) (by decide) (by decide)).2 (by decide)⟩

/-! ### C7 -/

/-- After `saveArticle`, some article row carries the returned id. -/
theorem saveArticle_id_mem (db : DB) (a : Candidate) :
    ∃ x ∈ (saveArticle db a).1.articles, x.id = (saveArticle db a).2 := by
  unfold saveArticle
  cases hf : db.articles.find? (fun r => r.url == a.url) with
  | some r =>
      have hmem := List.mem_of_find?_eq_some hf
      have hp := List.find?_some hf
      refine ⟨_, List.mem_map.mpr ⟨r, hmem, rfl⟩, ?_⟩
      rw [if_pos hp]
  | none =>
      exact ⟨_, List.mem_append_right _ (List.mem_singleton.mpr rfl), rfl⟩

/-- Generic form of the status update: if some row carries the id, the first
row `find?` sees after the update has the new status. -/
theorem find?_status_after_set (l : List ArticleRow) (aid : Nat) (st : String)
    (now : Nat) (h : ∃ x ∈ l, x.id = aid) :
    ((l.map (fun x => if x.id == aid
        then { x with processingStatus := st, updatedAt := now }
        else x)).find? (fun r => r.id == aid)).map (·.processingStatus) =
      some st := by
  induction l with
  | nil =>
      rcases h with ⟨x, hx, _⟩
      cases hx
  | cons y ys ih =>
      by_cases hy : (y.id == aid) = true
      · simp only [List.map_cons, if_pos hy]
        rw [List.find?_cons_of_pos _ (by simpa using hy)]
        rfl
      · simp only [List.map_cons, if_neg hy]
        have hstep : List.find? (fun r => r.id == aid)
            (y :: ys.map (fun x => if (x.id == aid) = true
              then { x with processingStatus := st, updatedAt := now }
              else x)) =
            List.find? (fun r => r.id == aid)
            (ys.map (fun x => if (x.id == aid) = true
              then { x with processingStatus := st, updatedAt := now }
              else x)) := List.find?_cons_of_neg _ hy
        rw [hstep]
        apply ih
        rcases h with ⟨x, hx, hxid⟩
        rcases List.mem_cons.mp hx with h1 | h1
        · subst h1
          exact absurd (by simp [hxid]) hy
        · exact ⟨x, h1, hxid⟩

/-- `setStatus` makes `statusOf` report the new status for an existing id. -/
theorem statusOf_setStatus (db : DB) (aid : Nat) (st : String)
    (h : ∃ x ∈ db.articles, x.id = aid) :
    statusOf (setStatus db aid st) aid = some st := by
  unfold statusOf setStatus
  exact find?_status_after_set db.articles aid st db.now h

/-- `saveSummary` leaves the article with status `summarized` whenever the
article id exists. -/
theorem statusOf_saveSummary (db : DB) (aid : Nat) (su : String)
    (tk tg : List String) (sc : Int) (h : ∃ x ∈ db.articles, x.id = aid) :
    statusOf (saveSummary db aid su tk tg sc) aid = some "summarized" := by
  unfold saveSummary
  cases hf : db.summaries.find? (fun s => s.articleId == aid) with
  | some s0 => exact statusOf_setStatus _ aid _ h
  | none => exact statusOf_setStatus _ aid _ h

/-- C7 (corrected).  When the extraction response holds no JSON block the
article is processed with zero entities, no warning is logged, and — when
the summary response parses — the article ends at status `summarized`; a
warning is logged exactly when a brace-delimited block is present but fails
to parse, in which case the outcome is otherwise the same.  No case aborts
the article. -/
theorem C7_extraction_soft_failure (parseE : String → Option Extracted)
    (parseS : String → Option SummaryData) (db : DB) (a : Candidate)
    (et1 et2 st b : String)
    (hE1 : jsExtractJsonBlock et1 = none)
    (hE2 : jsExtractJsonBlock et2 = some b) (hPE : parseE b = none)
    (hS : ∃ bb sd, jsExtractJsonBlock st = some bb ∧ parseS bb = some sd) :
    ((processOneArticle parseE parseS db a et1 st).2.entitiesExtracted = 0 ∧
     (processOneArticle parseE parseS db a et1 st).2.extractWarned = false ∧
     (processOneArticle parseE parseS db a et1 st).2.hasSummary = true ∧
     statusOf (processOneArticle parseE parseS db a et1 st).1
       (processOneArticle parseE parseS db a et1 st).2.articleId =
       some "summarized") ∧
    ((processOneArticle parseE parseS db a et2 st).2.entitiesExtracted = 0 ∧
     (processOneArticle parseE parseS db a et2 st).2.extractWarned = true ∧
     (processOneArticle parseE parseS db a et2 st).2.hasSummary = true ∧
     statusOf (processOneArticle parseE parseS db a et2 st).1
       (processOneArticle parseE parseS db a et2 st).2.articleId =
       some "summarized") := by
  rcases hS with ⟨bb, sd, hbb, hsd⟩
  have hid := saveArticle_id_mem db a
  have hEx1 : ∀ db1 aid, extractPhase parseE db1 aid et1 = (db1, 0, [], [], false) := by
    intro db1 aid
    unfold extractPhase
    rw [hE1]
  have hEx2 : ∀ db1 aid, extractPhase parseE db1 aid et2 = (db1, 0, [], [], true) := by
    intro db1 aid
    unfold extractPhase
    rw [hE2]
    simp only [hPE]
  have hSu : ∀ db2 aid, summaryPhase parseS db2 aid st =
      (saveSummary db2 aid sd.summary (sd.takeaways.getD []) (sd.tags.getD [])
        (effectiveScore sd), true, false) := by
    intro db2 aid
    unfold summaryPhase
    rw [hbb]
    simp only [hsd]
  constructor
  · unfold processOneArticle
    cases hsa : saveArticle db a with
    | mk db1 aid =>
        rw [hsa] at hid
        simp only [hEx1, hSu]
        exact ⟨trivial, trivial, trivial, statusOf_saveSummary db1 aid _ _ _ _ hid⟩
  · unfold processOneArticle
    cases hsa : saveArticle db a with
    | mk db1 aid =>
        rw [hsa] at hid
        simp only [hEx2, hSu]
        exact ⟨trivial, trivial, trivial, statusOf_saveSummary db1 aid _ _ _ _ hid⟩

/-- C7 counterexample.  A brace-free extraction response ("I found no
entities in this article.") with a succeeding summary: processing finishes
with zero entities and status `summarized`, but `extractWarned` is `false` —
no warning is logged, contrary to the claim. -/
theorem C7_counterexample :
    (processOneArticle (fun _ => none) parseSFix {} candFix
        "I found no entities in this article." "x {s} y").2.extractWarned = false ∧
    (processOneArticle (fun _ => none) parseSFix {} candFix
        "I found no entities in this article." "x {s} y").2.entitiesExtracted = 0 ∧
    (processOneArticle (fun _ => none) parseSFix {} candFix
        "I found no entities in this article." "x {s} y").2.hasSummary = true ∧
    statusOf (processOneArticle (fun _ => none) parseSFix {} candFix
        "I found no entities in this article." "x {s} y").1
      (processOneArticle (fun _ => none) parseSFix {} candFix
        "I found no entities in this article." "x {s} y").2.articleId =
      some "summarized" := by
  decide

/-- Witness for C7 at concrete boundaries and response texts. -/
theorem C7_witness :
    (jsExtractJsonBlock "I found no entities in this article." = none ∧
     jsExtractJsonBlock "oops {bad json}" = some "{bad json}" ∧
     (fun _ => (none : Option Extracted)) "{bad json}" = none ∧
     (∃ bb sd, jsExtractJsonBlock "x {s} y" = some bb ∧ parseSFix bb = some sd)) ∧
    (processOneArticle (fun _ => none) parseSFix dbFix candFix
        "oops {bad json}" "x {s} y").2.extractWarned = true ∧
    (processOneArticle (fun _ => none) parseSFix dbFix candFix
        "oops {bad json}" "x {s} y").2.entitiesExtracted = 0 ∧
    statusOf (processOneArticle (fun _ => none) parseSFix dbFix candFix
        "oops {bad json}" "x {s} y").1
      (processOneArticle (fun _ => none) parseSFix dbFix candFix
        "oops {bad json}" "x {s} y").2.articleId = some "summarized" :=
  ⟨⟨by decide, by decide, rfl, ⟨"{s}", sdFix, by decide, by decide⟩⟩,
   (C7_extraction_soft_failure (fun _ => none) parseSFix dbFix candFix
      "I found no entities in this article." "oops {bad json}" "x {s} y"
      "{bad json}" (by decide) (by decide) rfl
      ⟨"{s}", sdFix, by decide, by decide⟩).2.2.1,
   (C7_extraction_soft_failure (fun _ => none) parseSFix dbFix candFix
      "I found no entities in this article." "oops {bad json}" "x {s} y"
      "{bad json}" (by decide) (by decide) rfl
      ⟨"{s}", sdFix, by decide, by decide⟩).2.1,
   (C7_extraction_soft_failure (fun _ => none) parseSFix dbFix candFix
      "I found no entities in this article." "oops {bad json}" "x {s} y"
      "{bad json}" (by decide) (by decide) rfl
      ⟨"{s}", sdFix, by decide, by decide⟩).2.2.2.2⟩

/-! ### C8 -/

/-- Everything kept from the suffix starting at position `i` has its key's
first position at or after `i`. -/
theorem keepFirstsAux_findIdx_ge {α : Type} (full : List α) (key : α → String) :
    ∀ (xs : List α) (i : Nat) (x : α), x ∈ keepFirstsAux full key xs i →
      i ≤ full.findIdx (fun y => key y == key x) := by
  intro xs
  induction xs with
  | nil =>
      intro i x h
      cases h
  | cons z zs ih =>
      intro i x h
      unfold keepFirstsAux at h
      split at h
      · rename_i hz
        rcases List.mem_cons.mp h with h1 | h1
        · subst h1
          omega
        · have := ih (i + 1) x h1
          omega
      · have := ih (i + 1) x h
        omega

/-- The JS first-occurrence dedup keeps at most one element per key. -/
theorem countP_keepFirstsAux_le_one {α : Type} (full : List α)
    (key : α → String) (n : String) :
    ∀ (xs : List α) (i : Nat),
      (keepFirstsAux full key xs i).countP (fun x => key x == n) ≤ 1 := by
  intro xs
  induction xs with
  | nil =>
      intro i
      simp [keepFirstsAux]
  | cons z zs ih =>
      intro i
      unfold keepFirstsAux
      split
      · rename_i hz
        rw [List.countP_cons]
        by_cases hk : (key z == n) = true
        · have hzero : (keepFirstsAux full key zs (i + 1)).countP
              (fun x => key x == n) = 0 := by
            rw [List.countP_eq_zero]
            intro x hx hxk
            have hge := keepFirstsAux_findIdx_ge full key zs (i + 1) x hx
            have hkeq : key x = key z := by
              have e1 : key x = n := by simpa using hxk
              have e2 : key z = n := by simpa using hk
              rw [e1, e2]
            rw [hkeq, hz] at hge
            omega
          simp [hzero, hk]
        · simp only [hk, if_false, Nat.add_zero]
          exact ih (i + 1)
      · exact ih (i + 1)

/-- Everything the dedup keeps belongs to the scanned suffix. -/
theorem keepFirstsAux_subset {α : Type} (full : List α) (key : α → String) :
    ∀ (xs : List α) (i : Nat) (x : α), x ∈ keepFirstsAux full key xs i → x ∈ xs := by
  intro xs
  induction xs with
  | nil =>
      intro i x h
      cases h
  | cons z zs ih =>
      intro i x h
      unfold keepFirstsAux at h
      split at h
      · rcases List.mem_cons.mp h with h1 | h1
        · exact h1 ▸ List.mem_cons_self z zs
        · exact List.mem_cons_of_mem _ (ih (i + 1) x h1)
      · exact List.mem_cons_of_mem _ (ih (i + 1) x h)

/-- C8 (corrected, tool half).  The normalizer tool deduplicates the
normalized batch by canonical name with a first-occurrence policy: at most
one organization and at most one technology per canonical name survive,
every survivor comes from the normalized batch, and of two spellings of the
same organization the first is the one kept. -/
theorem C8_tool_dedups_by_canonical_name (orgs : List RawOrg)
    (techs : List RawTech) (n : String) :
    (uniqueOrgs orgs).countP (fun o => o.canonicalName == n) ≤ 1 ∧
    (uniqueTech techs).countP (fun t => t.canonicalName == n) ≤ 1 ∧
    (∀ o ∈ uniqueOrgs orgs, o ∈ orgs.map toolNormalizeOrg) ∧
    (∀ t ∈ uniqueTech techs, t ∈ techs.map toolNormalizeTech) ∧
    uniqueOrgs [⟨"Cerner", "vendor", 9⟩, ⟨"Oracle Cerner", "vendor", 8⟩] =
      [toolNormalizeOrg ⟨"Cerner", "vendor", 9⟩] :=
  ⟨countP_keepFirstsAux_le_one _ _ n _ 0,
   countP_keepFirstsAux_le_one _ _ n _ 0,
   fun o ho => keepFirstsAux_subset _ _ _ 0 o ho,
   fun t ht => keepFirstsAux_subset _ _ _ 0 t ht,
   by decide⟩

/-- C8 counterexample.  On the pipeline path the inline normalization of
`processArticlesStep` hands `saveEntities` the batch without any dedup: an
extraction reporting "Cerner" and "Oracle Cerner" yields two organizations
with the same canonical name "Oracle Health" in the saved list. -/
theorem C8_counterexample :
    ((processOneArticle parseEFix (fun _ => none) {} candFix "{e}" "").2.savedOrgs.map
      (·.canonicalName)) = ["Oracle Health", "Oracle Health"] ∧
    ((processOneArticle parseEFix (fun _ => none) {} candFix "{e}" "").2.savedOrgs.countP
      (fun o => o.canonicalName == "Oracle Health")) = 2 := by
  decide

/-! ### C9 -/

/-- C9 (confirmed).  `parseDate` accepts what the standard `Date` boundary
accepts, additionally accepts the vendor format "Mon D, YYYY H:MMam/pm"
with the usual 12-hour clock mapping (pm adds 12 to hours below 12 and 12am
becomes hour 0, as the concrete instances show), and returns no date for a
missing, empty or otherwise unparsable string; the RSS item mapping still
produces one item per feed entry, carrying an absent published date in that
case. -/
theorem C9_parseDate_formats (stdParse : String → Option JsDate) :
    (parseDate stdParse none = none) ∧
    (∀ s d, stdParse s = some d → s ≠ "" →
      parseDate stdParse (some s) = some d) ∧
    (stdParse "Feb 4, 2026 12:56pm" = none →
      parseDate stdParse (some "Feb 4, 2026 12:56pm") = some ⟨2026, 1, 4, 12, 56⟩) ∧
    (stdParse "Feb 4, 2026 12:56am" = none →
      parseDate stdParse (some "Feb 4, 2026 12:56am") = some ⟨2026, 1, 4, 0, 56⟩) ∧
    (stdParse "Sep 30, 2025 3:07pm" = none →
      parseDate stdParse (some "Sep 30, 2025 3:07pm") = some ⟨2025, 8, 30, 15, 7⟩) ∧
    (∀ s fm mi, stdParse s = none → matchFierce s = some fm →
      monthIndex (jsToLower fm.month) = some mi →
      parseDate stdParse (some s) =
        some ⟨fm.year, mi, fm.day, fixHour fm.hour fm.ampm, fm.minute⟩) ∧
    (∀ s, stdParse s = none → matchFierce s = none →
      parseDate stdParse (some s) = none) ∧
    (∀ s fm, stdParse s = none → matchFierce s = some fm →
      monthIndex (jsToLower fm.month) = none →
      parseDate stdParse (some s) = none) ∧
    (∀ items, (scrapeItems stdParse items).length = items.length) ∧
    (∀ it : FeedItem, jsOrString it.pubDate it.isoDate = none →
      itemPublishedDate stdParse it = none) := by
  have hempty : matchFierce "" = none := by decide
  refine ⟨rfl, ?_, ?_, ?_, ?_, ?_, ?_, ?_, ?_, ?_⟩
  · intro s d h hne
    simp only [parseDate, if_neg hne, h]
  · intro h
    simp only [parseDate, h]
    rfl
  · intro h
    simp only [parseDate, h]
    rfl
  · intro h
    simp only [parseDate, h]
    rfl
  · intro s fm mi h1 h2 h3
    have hne : s ≠ "" := by
      intro he
      rw [he, hempty] at h2
      cases h2
    simp only [parseDate, if_neg hne, h1, h2, h3]
  · intro s h1 h2
    by_cases hne : s = ""
    · simp only [parseDate, hne]
      rfl
    · simp only [parseDate, if_neg hne, h1, h2]
  · intro s fm h1 h2 h3
    have hne : s ≠ "" := by
      intro he
      rw [he, hempty] at h2
      cases h2
    simp only [parseDate, if_neg hne, h1, h2, h3]
  · intro items
    exact List.length_map items _
  · intro it h
    unfold itemPublishedDate
    rw [h]
    rfl

/-- Witness for C9 with a standard-parse boundary that accepts nothing: the
vendor format is parsed with noon kept at hour 12, and prose is rejected. -/
theorem C9_witness :
    ((fun _ => (none : Option JsDate)) "Feb 4, 2026 12:56pm" = none ∧
     (fun _ => (none : Option JsDate)) "tomorrow at noon" = none ∧
     matchFierce "tomorrow at noon" = none) ∧
    parseDate (fun _ => none) (some "Feb 4, 2026 12:56pm") =
      some ⟨2026, 1, 4, 12, 56⟩ ∧
    parseDate (fun _ => none) (some "tomorrow at noon") = none ∧
    parseDate (fun _ => none) none = none :=
  ⟨⟨rfl, rfl, by decide⟩,
   (C9_parseDate_formats (fun _ => none)).2.2.1 rfl,
   (C9_parseDate_formats (fun _ => none)).2.2.2.2.2.2.1 "tomorrow at noon" rfl
     (by decide),
   (C9_parseDate_formats (fun _ => none)).1⟩

/-! ### C6 -/

/-- The routing table maps every tag to one of the two analysts. -/
theorem tagAnalyst_cases (t a : String) (h : tagAnalyst t = some a) :
    a = "drex-deford" ∨ a = "sarah-richardson" := by
  unfold tagAnalyst topicToAnalyst at h
  split at h <;>
    first
      | exact Or.inl (Option.some.inj h).symm
      | exact Or.inr (Option.some.inj h).symm
      | cases h

/-- A non-matching tag leaves the score object unchanged. -/
theorem scoreStep_none {t : String} (h : tagAnalyst t = none)
    (m : List (String × Nat)) : scoreStep m t = m := by
  unfold scoreStep
  rw [h]

/-- A matching tag bumps its analyst's score. -/
theorem scoreStep_some {t a : String} (h : tagAnalyst t = some a)
    (m : List (String × Nat)) : scoreStep m t = bumpScore m a := by
  unfold scoreStep
  rw [h]

/-- Unfolding `dCount` over a tag voting for the security analyst. -/
theorem dCount_cons_d {t : String} (ts : List String)
    (h : tagAnalyst t = some "drex-deford") :
    dCount (t :: ts) = 1 + dCount ts := by
  simp [dCount, h]

/-- Unfolding `dCount` over any other tag. -/
theorem dCount_cons_not {t : String} (ts : List String)
    (h : tagAnalyst t ≠ some "drex-deford") :
    dCount (t :: ts) = dCount ts := by
  simp [dCount, h]

/-- Unfolding `sCount` over a tag voting for the leadership analyst. -/
theorem sCount_cons_s {t : String} (ts : List String)
    (h : tagAnalyst t = some "sarah-richardson") :
    sCount (t :: ts) = 1 + sCount ts := by
  simp [sCount, h]

/-- Unfolding `sCount` over any other tag. -/
theorem sCount_cons_not {t : String} (ts : List String)
    (h : tagAnalyst t ≠ some "sarah-richardson") :
    sCount (t :: ts) = sCount ts := by
  simp [sCount, h]

/-- Once both analysts hold an entry (security analyst first), further tags
only increment the two counters in place. -/
theorem scores_fold_two_d_first :
    ∀ (tags : List String) (x y : Nat),
      tags.foldl scoreStep [("drex-deford", x), ("sarah-richardson", y)] =
        [("drex-deford", x + dCount tags), ("sarah-richardson", y + sCount tags)] := by
  intro tags
  induction tags with
  | nil =>
      intro x y
      simp [dCount, sCount]
  | cons t ts ih =>
      intro x y
      rw [List.foldl_cons]
      cases h : tagAnalyst t with
      | none =>
          rw [scoreStep_none h, ih x y, dCount_cons_not ts (by simp [h]),
            sCount_cons_not ts (by simp [h])]
      | some a =>
          rcases tagAnalyst_cases t a h with ha | ha
          · subst ha
            rw [scoreStep_some h,
              show bumpScore [("drex-deford", x), ("sarah-richardson", y)]
                "drex-deford" = [("drex-deford", x + 1), ("sarah-richardson", y)]
                from by simp [bumpScore],
              ih (x + 1) y, dCount_cons_d ts h, sCount_cons_not ts (by simp [h])]
            simp [Nat.add_assoc]
          · subst ha
            rw [scoreStep_some h,
              show bumpScore [("drex-deford", x), ("sarah-richardson", y)]
                "sarah-richardson" =
                [("drex-deford", x), ("sarah-richardson", y + 1)]
                from by simp [bumpScore],
              ih x (y + 1), sCount_cons_s ts h, dCount_cons_not ts (by simp [h])]
            simp [Nat.add_assoc]

/-- Mirror image of the previous lemma, leadership analyst first. -/
theorem scores_fold_two_s_first :
    ∀ (tags : List String) (x y : Nat),
      tags.foldl scoreStep [("sarah-richardson", y), ("drex-deford", x)] =
        [("sarah-richardson", y + sCount tags), ("drex-deford", x + dCount tags)] := by
  intro tags
  induction tags with
  | nil =>
      intro x y
      simp [dCount, sCount]
  | cons t ts ih =>
      intro x y
      rw [List.foldl_cons]
      cases h : tagAnalyst t with
      | none =>
          rw [scoreStep_none h, ih x y, dCount_cons_not ts (by simp [h]),
            sCount_cons_not ts (by simp [h])]
      | some a =>
          rcases tagAnalyst_cases t a h with ha | ha
          · subst ha
            rw [scoreStep_some h,
              show bumpScore [("sarah-richardson", y), ("drex-deford", x)]
                "drex-deford" = [("sarah-richardson", y), ("drex-deford", x + 1)]
                from by simp [bumpScore],
              ih (x + 1) y, dCount_cons_d ts h, sCount_cons_not ts (by simp [h])]
            simp [Nat.add_assoc]
          · subst ha
            rw [scoreStep_some h,
              show bumpScore [("sarah-richardson", y), ("drex-deford", x)]
                "sarah-richardson" =
                [("sarah-richardson", y + 1), ("drex-deford", x)]
                from by simp [bumpScore],
              ih x (y + 1), sCount_cons_s ts h, dCount_cons_not ts (by simp [h])]
            simp [Nat.add_assoc]

/-- Folding from a security-analyst-only score object. -/
theorem scores_fold_one_d :
    ∀ (tags : List String) (x : Nat),
      tags.foldl scoreStep [("drex-deford", x)] =
        if sCount tags = 0 then [("drex-deford", x + dCount tags)]
        else [("drex-deford", x + dCount tags), ("sarah-richardson", sCount tags)] := by
  intro tags
  induction tags with
  | nil =>
      intro x
      simp [dCount, sCount]
  | cons t ts ih =>
      intro x
      rw [List.foldl_cons]
      cases h : tagAnalyst t with
      | none =>
          rw [scoreStep_none h, ih x, dCount_cons_not ts (by simp [h]),
            sCount_cons_not ts (by simp [h])]
      | some a =>
          rcases tagAnalyst_cases t a h with ha | ha
          · subst ha
            rw [scoreStep_some h,
              show bumpScore [("drex-deford", x)] "drex-deford" =
                [("drex-deford", x + 1)] from by simp [bumpScore],
              ih (x + 1), dCount_cons_d ts h, sCount_cons_not ts (by simp [h])]
            by_cases hs : sCount ts = 0 <;> simp [hs, Nat.add_assoc]
          · subst ha
            rw [scoreStep_some h,
              show bumpScore [("drex-deford", x)] "sarah-richardson" =
                [("drex-deford", x), ("sarah-richardson", 1)]
                from by simp [bumpScore],
              scores_fold_two_d_first ts x 1, sCount_cons_s ts h,
              dCount_cons_not ts (by simp [h])]
            rw [if_neg (by omega)]

/-- Folding from a leadership-analyst-only score object. -/
theorem scores_fold_one_s :
    ∀ (tags : List String) (y : Nat),
      tags.foldl scoreStep [("sarah-richardson", y)] =
        if dCount tags = 0 then [("sarah-richardson", y + sCount tags)]
        else [("sarah-richardson", y + sCount tags), ("drex-deford", dCount tags)] := by
  intro tags
  induction tags with
  | nil =>
      intro y
      simp [dCount, sCount]
  | cons t ts ih =>
      intro y
      rw [List.foldl_cons]
      cases h : tagAnalyst t with
      | none =>
          rw [scoreStep_none h, ih y, dCount_cons_not ts (by simp [h]),
            sCount_cons_not ts (by simp [h])]
      | some a =>
          rcases tagAnalyst_cases t a h with ha | ha
          · subst ha
            rw [scoreStep_some h,
              show bumpScore [("sarah-richardson", y)] "drex-deford" =
                [("sarah-richardson", y), ("drex-deford", 1)]
                from by simp [bumpScore],
              scores_fold_two_s_first ts 1 y, dCount_cons_d ts h,
              sCount_cons_not ts (by simp [h])]
            rw [if_neg (by omega)]
          · subst ha
            rw [scoreStep_some h,
              show bumpScore [("sarah-richardson", y)] "sarah-richardson" =
                [("sarah-richardson", y + 1)] from by simp [bumpScore],
              ih (y + 1), sCount_cons_s ts h, dCount_cons_not ts (by simp [h])]
            by_cases hd : dCount ts = 0 <;> simp [hd, Nat.add_assoc]

/-- Tags with no match leave the score object empty. -/
theorem scores_fold_nil_none :
    ∀ (tags : List String), firstAnalyst tags = none →
      tags.foldl scoreStep [] = [] := by
  intro tags
  induction tags with
  | nil =>
      intro _
      rfl
  | cons t ts ih =>
      intro h
      unfold firstAnalyst at h
      rw [List.foldl_cons]
      cases ht : tagAnalyst t with
      | none =>
          rw [ht] at h
          rw [scoreStep_none ht, ih h]
      | some a =>
          rw [ht] at h
          cases h

/-- No match also means both counters are zero. -/
theorem firstAnalyst_none_counts :
    ∀ (tags : List String), firstAnalyst tags = none →
      dCount tags = 0 ∧ sCount tags = 0 := by
  intro tags
  induction tags with
  | nil =>
      intro _
      exact ⟨rfl, rfl⟩
  | cons t ts ih =>
      intro h
      unfold firstAnalyst at h
      cases ht : tagAnalyst t with
      | none =>
          rw [ht] at h
          obtain ⟨h1, h2⟩ := ih h
          rw [dCount_cons_not ts (by simp [ht]), sCount_cons_not ts (by simp [ht])]
          exact ⟨h1, h2⟩
      | some a =>
          rw [ht] at h
          cases h

/-- When the first matching tag votes security, the fold produces the
security-first shape. -/
theorem scores_fold_nil_d :
    ∀ (tags : List String), firstAnalyst tags = some "drex-deford" →
      tags.foldl scoreStep [] =
        if sCount tags = 0 then [("drex-deford", dCount tags)]
        else [("drex-deford", dCount tags), ("sarah-richardson", sCount tags)] := by
  intro tags
  induction tags with
  | nil =>
      intro h
      cases h
  | cons t ts ih =>
      intro h
      unfold firstAnalyst at h
      rw [List.foldl_cons]
      cases ht : tagAnalyst t with
      | none =>
          rw [ht] at h
          rw [scoreStep_none ht, ih h, dCount_cons_not ts (by simp [ht]),
            sCount_cons_not ts (by simp [ht])]
      | some a =>
          rw [ht] at h
          have ha : a = "drex-deford" := Option.some.inj h
          subst ha
          rw [scoreStep_some ht, show bumpScore [] "drex-deford" =
            [("drex-deford", 1)] from rfl, scores_fold_one_d ts 1,
            dCount_cons_d ts ht, sCount_cons_not ts (by simp [ht])]

/-- When the first matching tag votes leadership, the fold produces the
leadership-first shape. -/
theorem scores_fold_nil_s :
    ∀ (tags : List String), firstAnalyst tags = some "sarah-richardson" →
      tags.foldl scoreStep [] =
        if dCount tags = 0 then [("sarah-richardson", sCount tags)]
        else [("sarah-richardson", sCount tags), ("drex-deford", dCount tags)] := by
  intro tags
  induction tags with
  | nil =>
      intro h
      cases h
  | cons t ts ih =>
      intro h
      unfold firstAnalyst at h
      rw [List.foldl_cons]
      cases ht : tagAnalyst t with
      | none =>
          rw [ht] at h
          rw [scoreStep_none ht, ih h, dCount_cons_not ts (by simp [ht]),
            sCount_cons_not ts (by simp [ht])]
      | some a =>
          rw [ht] at h
          have ha : a = "sarah-richardson" := Option.some.inj h
          subst ha
          rw [scoreStep_some ht, show bumpScore [] "sarah-richardson" =
            [("sarah-richardson", 1)] from rfl, scores_fold_one_s ts 1,
            sCount_cons_s ts ht, dCount_cons_not ts (by simp [ht])]

/-- The first matching analyst can only be one of the two mapped slugs. -/
theorem firstAnalyst_mem :
    ∀ (tags : List String) (a : String), firstAnalyst tags = some a →
      a = "drex-deford" ∨ a = "sarah-richardson" := by
  intro tags
  induction tags with
  | nil =>
      intro a h
      cases h
  | cons t ts ih =>
      intro a h
      unfold firstAnalyst at h
      cases ht : tagAnalyst t with
      | none =>
          rw [ht] at h
          exact ih a h
      | some b =>
          rw [ht] at h
          have : b = a := Option.some.inj h
          subst this
          exact tagAnalyst_cases t b ht

/-- A security-first match forces a positive security count. -/
theorem firstAnalyst_d_pos :
    ∀ (tags : List String), firstAnalyst tags = some "drex-deford" →
      0 < dCount tags := by
  intro tags
  induction tags with
  | nil =>
      intro h
      cases h
  | cons t ts ih =>
      intro h
      unfold firstAnalyst at h
      cases ht : tagAnalyst t with
      | none =>
          rw [ht] at h
          rw [dCount_cons_not ts (by simp [ht])]
          exact ih h
      | some a =>
          rw [ht] at h
          have ha : a = "drex-deford" := Option.some.inj h
          subst ha
          rw [dCount_cons_d ts ht]
          omega

/-- A leadership-first match forces a positive leadership count. -/
theorem firstAnalyst_s_pos :
    ∀ (tags : List String), firstAnalyst tags = some "sarah-richardson" →
      0 < sCount tags := by
  intro tags
  induction tags with
  | nil =>
      intro h
      cases h
  | cons t ts ih =>
      intro h
      unfold firstAnalyst at h
      cases ht : tagAnalyst t with
      | none =>
          rw [ht] at h
          rw [sCount_cons_not ts (by simp [ht])]
          exact ih h
      | some a =>
          rw [ht] at h
          have ha : a = "sarah-richardson" := Option.some.inj h
          subst ha
          rw [sCount_cons_s ts ht]
          omega

/-- The selection loop on a single positive entry returns that entry. -/
theorem pickBest_single (k : String) (x : Nat) (hx : 0 < x) :
    pickBest [(k, x)] = k := by
  unfold pickBest
  simp [hx]

/-- The selection loop on two entries, the first positive: the second wins
only with a strictly higher score. -/
theorem pickBest_two (k1 k2 : String) (x y : Nat) (hx : 0 < x) :
    pickBest [(k1, x), (k2, y)] = if x < y then k2 else k1 := by
  unfold pickBest
  simp only [List.foldl_cons, List.foldl_nil]
  rw [if_pos hx]
  by_cases hy : x < y
  · rw [if_pos hy, if_pos hy]
  · rw [if_neg hy, if_neg hy]

/-- C6 (corrected).  `routeToAnalyst` gives one point per
case/whitespace-normalized tag found in the table and the strictly highest
score wins, with `"bill-russell"` when no tag matches; but a tie between the
two analysts resolves to the analyst whose matching tag was scored first,
not to the default.  The spec's two concrete routes hold. -/
theorem C6_routeToAnalyst_scoring :
    (∀ tags : List String,
      routeToAnalyst tags =
        if dCount tags = 0 ∧ sCount tags = 0 then "bill-russell"
        else if sCount tags < dCount tags then "drex-deford"
        else if dCount tags < sCount tags then "sarah-richardson"
        else (firstAnalyst tags).getD "bill-russell") ∧
    routeToAnalyst ["ransomware", "cybersecurity"] = "drex-deford" ∧
    routeToAnalyst [] = "bill-russell" := by
  refine ⟨?_, by decide, rfl⟩
  intro tags
  unfold routeToAnalyst tagScores
  cases hf : firstAnalyst tags with
  | none =>
      obtain ⟨hd, hs⟩ := firstAnalyst_none_counts tags hf
      rw [scores_fold_nil_none tags hf, if_pos ⟨hd, hs⟩]
      rfl
  | some a =>
      rcases firstAnalyst_mem tags a hf with ha | ha
      · subst ha
        have hdpos := firstAnalyst_d_pos tags hf
        rw [scores_fold_nil_d tags hf]
        by_cases hs0 : sCount tags = 0
        · rw [if_pos hs0, pickBest_single _ _ hdpos,
            if_neg (by omega), if_pos (by omega)]
        · rw [if_neg hs0, pickBest_two _ _ _ _ hdpos]
          by_cases hlt : dCount tags < sCount tags
          · rw [if_pos hlt, if_neg (by omega), if_neg (by omega), if_pos hlt]
          · by_cases hgt : sCount tags < dCount tags
            · rw [if_neg hlt, if_neg (by omega), if_pos hgt]
            · rw [if_neg hlt, if_neg (by omega), if_neg (by omega),
                if_neg (by omega)]
              rfl
      · subst ha
        have hspos := firstAnalyst_s_pos tags hf
        rw [scores_fold_nil_s tags hf]
        by_cases hd0 : dCount tags = 0
        · rw [if_pos hd0, pickBest_single _ _ hspos,
            if_neg (by omega), if_neg (by omega), if_pos (by omega)]
        · rw [if_neg hd0, pickBest_two _ _ _ _ hspos]
          by_cases hlt : sCount tags < dCount tags
          · rw [if_pos hlt, if_neg (by omega), if_pos hlt]
          · by_cases hgt : dCount tags < sCount tags
            · rw [if_neg hlt, if_neg (by omega), if_neg hlt, if_pos hgt]
            · rw [if_neg hlt, if_neg (by omega), if_neg hlt,
                if_neg (by omega)]
              rfl

/-- C6 counterexample.  The tags `["cybersecurity", "leadership"]` give each
analyst one point — a tie for the highest score — yet routing returns
`"drex-deford"`, not the designated default `"bill-russell"`; with the same
tags in the opposite order it returns `"sarah-richardson"`, so the tie goes
to the first-scored analyst rather than the default. -/
theorem C6_counterexample :
    dCount ["cybersecurity", "leadership"] = 1 ∧
    sCount ["cybersecurity", "leadership"] = 1 ∧
    routeToAnalyst ["cybersecurity", "leadership"] = "drex-deford" ∧
    routeToAnalyst ["leadership", "cybersecurity"] = "sarah-richardson" ∧
    routeToAnalyst ["cybersecurity", "leadership"] ≠ "bill-russell" := by
  decide

end TWH
